import Mathlib

/-!
# go-bj-rpc: correlation and dispatch engine

A shallow embedding of the packages `json_rpc` (`json-rpc/errors.go`,
`json-rpc/json_rpc.go`) and `bjrpc` (`bjrpc/type.go`, `bjrpc/lib.go`), followed by
theorems about the embedded functions.

Conventions of the embedding.

* A Go pointer `*T` is an `Option T`; `none` is the nil pointer.
* JSON texts are handled at the level of the value they denote (`JVal`); a chunk of
  bytes that is not a JSON text is `Wire.malformed`.
* The library `encoding/json` is modelled for the six struct types the packages
  decode or encode, following the library's documented rules (field lookup by
  folded name, `null` handling, type mismatches).
* A function that can hit a run-time fault (nil dereference, reflection on an
  invalid value) returns an `Outcome` that says so and carries the state reached.
* Each method is described as run on its own, from its first line to the point where
  it returns, faults or is suspended. The mutex `transportLock` is a field of the
  engine: a `Call` holds it from its `Write` until it returns, so all the time it is
  suspended in `<-done`. `writeResponse` runs on the goroutine of the read loop `Go`,
  the only one that delivers responses: when it finds the lock held it is suspended in
  `Lock()` with nothing written, and the call that holds the lock is not completed
  while it is. A `Call` runs on the goroutine of its caller: when it finds the lock
  held it waits until the call holding it has returned and then goes on; that wait is
  not followed, the call is described as going on at once. `requestIdLock` is held
  only around single map operations and is left out.
-/

set_option autoImplicit false

namespace json_rpc

/-! ## JSON values -/

/-- A JSON value. An integer literal (no fraction, no exponent) is `int`; any other
number literal is `real`, carrying its text. -/
inductive JVal where
  | null
  | bool (b : Bool)
  | int (i : Int)
  | real (text : String)
  | str (s : String)
  | arr (elems : List JVal)
  | obj (members : List (String × JVal))

/-- The word `encoding/json` uses for the kind of a JSON value in a type error. -/
def JVal.kindName : JVal → String
  | .null => "null"
  | .bool _ => "bool"
  | .int _ => "number"
  | .real _ => "number"
  | .str _ => "string"
  | .arr _ => "array"
  | .obj _ => "object"

/-- The type `json.RawMessage`: a byte slice holding a JSON text. `nil` is the nil
slice, `json v` the text of `v`, `garbage` any non-nil slice that is not a JSON text. -/
inductive RawMessage where
  | nil
  | json (v : JVal)
  | garbage

/-- A value of type `interface{}` as this program observes it: by comparison with
`nil` and through `json.Marshal`. `json v` is a non-nil value that encodes to `v` (a
typed nil pointer is `json .null`); `unencodable text` is a non-nil value
`json.Marshal` rejects (a channel, a function, a NaN) with an error of that text. -/
inductive GoValue where
  | nil
  | json (v : JVal)
  | unencodable (text : String)

/-- The test `v != nil` on an `interface{}`. -/
def GoValue.isNil : GoValue → Bool
  | .nil => true
  | _ => false

/-! ## errors.go -/

/-- RPCError is the low-level json rpc error object. -/
structure RPCError where
  Code : Int
  Message : String
  Data : RawMessage

/-- A non-nil value of the interface type `error`. `rpc e` has dynamic type `*RPCError`
and points to `e`; `rpcNil` has dynamic type `*RPCError` and is the nil pointer;
`other msg` has any other dynamic type and its `Error()` returns `msg`.
The nil interface is `none : Option GoError`. -/
inductive GoError where
  | rpc (e : RPCError)
  | rpcNil
  | other (msg : String)

/-- `errors.New(msg)`. -/
def errorsNew (msg : String) : GoError := .other msg

/-- The method call `err.Error()` on a non-nil `error`; `none` is the nil dereference of
`(*RPCError).Error` on a nil receiver. -/
def GoError.Error : GoError → Option String
  | .rpc e => some e.Message
  | .rpcNil => none
  | .other msg => some msg

/-- NewError creates a simple server error from a given error. The result is a
`*RPCError`: the type assertion `err.(*RPCError)` succeeds for `rpc` and `rpcNil` and
hands back the pointer itself. -/
def NewError : GoError → Option RPCError
  | .rpc e => some e
  | .rpcNil => none
  | .other msg => some { Code := -32000, Message := msg, Data := .nil }

/-- Retry returns true if the error is retriable. -/
def RPCError.Retry (err : RPCError) : Bool :=
  if err.Code = -32603 then true
  else if err.Code ≤ -32600 then false
  else if err.Code = -32001 then false
  else true

/-- NewUnretriableError. The source takes an `error` and uses it only through
`err.Error()`; `message` is that text, evaluated by the caller. -/
def NewUnretriableError (message : String) : RPCError :=
  { Code := -32001, Message := message, Data := .nil }

/-- JsonParseError, on the text `err.Error()`. -/
def JsonParseError (message : String) : RPCError :=
  { Code := -32700, Message := message, Data := .nil }

/-- MethodNotFoundError, on the text `err.Error()`. -/
def MethodNotFoundError (message : String) : RPCError :=
  { Code := -32601, Message := message, Data := .nil }

/-- InvalidParamsError, on the text `err.Error()`. -/
def InvalidParamsError (message : String) : RPCError :=
  { Code := -32602, Message := message, Data := .nil }

/-- InvalidRequestObject, on the text `err.Error()`. -/
def InvalidRequestObject (message : String) : RPCError :=
  { Code := -32600, Message := message, Data := .nil }

/-- The conversion of a `*RPCError` to the interface type `error`. -/
def asError : Option RPCError → GoError
  | some e => .rpc e
  | none => .rpcNil

/-! ## json_rpc.go: the message types -/

/-- The envelope `UnmarshalJSON` decodes first. -/
structure intermediateMessage where
  JSONRPC : String
  Method : Option String
  Result : Option RawMessage
  Error : Option RPCError

/-- Request as the sending side builds it. A nil slice and an empty slice are both
the empty list. -/
structure ClientRequest where
  JSONRPC : String
  Method : String
  Params : List GoValue
  Id : Option String

/-- Request as the receiving side decodes it. -/
structure ServerRequest where
  JSONRPC : String
  Method : String
  Params : List RawMessage
  Id : Option String

/-- Response as the answering side builds it. -/
structure ClientResponse where
  JSONRPC : String
  Result : GoValue
  Error : Option RPCError
  Id : String

/-- Response as the calling side decodes it. -/
structure ServerResponse where
  JSONRPC : String
  Result : Option RawMessage
  Error : Option RPCError
  Id : String

/-- ServerMessage is either a request or a response: two embedded pointers. -/
structure ServerMessage where
  ServerRequest : Option ServerRequest
  ServerResponse : Option ServerResponse

/-- The value `ServerMessage{}`. -/
def ServerMessage.fresh : ServerMessage := { ServerRequest := none, ServerResponse := none }

def ServerMessage.IsRequest (msg : ServerMessage) : Bool := msg.ServerRequest.isSome

def ServerMessage.IsResponse (msg : ServerMessage) : Bool := msg.ServerResponse.isSome

def ServerRequest.IsNotification (req : ServerRequest) : Bool := req.Id.isNone

/-! ## encoding/json, decoding side -/

/-- The rune folding of the library's field lookup. Field names of this program are
ASCII, and the only runes that fold to an ASCII letter are the ASCII letters, the long
s (U+017F) and the Kelvin sign (U+212A); every other rune is left alone. -/
def foldRune (c : Char) : Char :=
  if 97 ≤ c.toNat ∧ c.toNat ≤ 122 then Char.ofNat (c.toNat - 32)
  else if c.toNat = 0x17F then 'S'
  else if c.toNat = 0x212A then 'K'
  else c

def foldName (s : String) : String := String.mk (s.data.map foldRune)

/-- Whether the object key `key` selects the struct field tagged `name`: an exact
match or, failing that, a match of the folded names. -/
def keyIs (name key : String) : Bool := key == name || foldName key == foldName name

/-- The library's `*UnmarshalTypeError` for a JSON value that does not fit the Go
type of a field, as an error value. Its text is the library's business; that it is
not an `*RPCError` is what the program can observe. -/
def typeError (v : JVal) (goType : String) : GoError :=
  .other ("json: cannot unmarshal " ++ v.kindName ++ " into Go value of type " ++ goType)

/-- Decoding into a field of type `string`: `null` leaves the field as it is. -/
def decodeString (cur : String) : JVal → Except GoError String
  | .str s => .ok s
  | .null => .ok cur
  | v => .error (typeError v "string")

/-- Decoding into a field of type `*string`: `null` sets the nil pointer. -/
def decodeStringPtr : JVal → Except GoError (Option String)
  | .str s => .ok (some s)
  | .null => .ok none
  | v => .error (typeError v "string")

/-- Decoding into a field of type `int` (64 bits): an integer literal in range. -/
def decodeInt (cur : Int) : JVal → Except GoError Int
  | .int i => if -9223372036854775808 ≤ i ∧ i ≤ 9223372036854775807 then .ok i
              else .error (typeError (.int i) "int")
  | .null => .ok cur
  | v => .error (typeError v "int")

/-- Decoding into a field of type `*json.RawMessage`: `null` sets the nil pointer,
any other value is stored as it stands. -/
def decodeRawPtr : JVal → Option RawMessage
  | .null => none
  | v => some (.json v)

/-- Decoding into a field of type `[]json.RawMessage`: each element is stored as it
stands, `null` sets the nil slice. -/
def decodeRawSlice : JVal → Except GoError (List RawMessage)
  | .arr elems => .ok (elems.map RawMessage.json)
  | .null => .ok []
  | v => .error (typeError v "[]json.RawMessage")

/-- The members of an object are decoded in order, each into the field its key
selects, and decoding reports the first type mismatch. -/
def decodeMembers {σ : Type} (step : σ → String × JVal → Except GoError σ) :
    σ → List (String × JVal) → Except GoError σ
  | s, [] => .ok s
  | s, m :: ms =>
    match step s m with
    | .error e => .error e
    | .ok s' => decodeMembers step s' ms

/-- `json.Unmarshal` of a JSON value into a struct that starts from `zero`: an object
is decoded member by member, `null` is a no-op, anything else is a type mismatch. -/
def decodeStruct {σ : Type} (goType : String) (step : σ → String × JVal → Except GoError σ)
    (zero : σ) : JVal → Except GoError σ
  | .obj members => decodeMembers step zero members
  | .null => .ok zero
  | v => .error (typeError v goType)

/-- One member of an `error` object, into `RPCError`. -/
def RPCError.decodeMember (cur : RPCError) (m : String × JVal) : Except GoError RPCError :=
  if keyIs "code" m.1 then (decodeInt cur.Code m.2).map fun c => { cur with Code := c }
  else if keyIs "message" m.1 then
    (decodeString cur.Message m.2).map fun s => { cur with Message := s }
  else if keyIs "data" m.1 then .ok { cur with Data := .json m.2 }
  else .ok cur

/-- Decoding into a field of type `*RPCError`: `null` sets the nil pointer; an object is
decoded into the struct already pointed to, or into a new zero struct. -/
def decodeErrorPtr (cur : Option RPCError) : JVal → Except GoError (Option RPCError)
  | .null => .ok none
  | .obj members =>
    (decodeMembers RPCError.decodeMember
      (cur.getD { Code := 0, Message := "", Data := .nil }) members).map some
  | v => .error (typeError v "json_rpc.RPCError")

def intermediateMessage.decodeMember (cur : intermediateMessage) (m : String × JVal) :
    Except GoError intermediateMessage :=
  if keyIs "jsonrpc" m.1 then
    (decodeString cur.JSONRPC m.2).map fun s => { cur with JSONRPC := s }
  else if keyIs "method" m.1 then (decodeStringPtr m.2).map fun p => { cur with Method := p }
  else if keyIs "result" m.1 then .ok { cur with Result := decodeRawPtr m.2 }
  else if keyIs "error" m.1 then
    (decodeErrorPtr cur.Error m.2).map fun p => { cur with Error := p }
  else .ok cur

def ServerRequest.decodeMember (cur : ServerRequest) (m : String × JVal) :
    Except GoError ServerRequest :=
  if keyIs "jsonrpc" m.1 then
    (decodeString cur.JSONRPC m.2).map fun s => { cur with JSONRPC := s }
  else if keyIs "method" m.1 then
    (decodeString cur.Method m.2).map fun s => { cur with Method := s }
  else if keyIs "params" m.1 then (decodeRawSlice m.2).map fun ps => { cur with Params := ps }
  else if keyIs "id" m.1 then (decodeStringPtr m.2).map fun p => { cur with Id := p }
  else .ok cur

def ServerResponse.decodeMember (cur : ServerResponse) (m : String × JVal) :
    Except GoError ServerResponse :=
  if keyIs "jsonrpc" m.1 then
    (decodeString cur.JSONRPC m.2).map fun s => { cur with JSONRPC := s }
  else if keyIs "result" m.1 then .ok { cur with Result := decodeRawPtr m.2 }
  else if keyIs "error" m.1 then
    (decodeErrorPtr cur.Error m.2).map fun p => { cur with Error := p }
  else if keyIs "id" m.1 then (decodeString cur.Id m.2).map fun s => { cur with Id := s }
  else .ok cur

/-- `json.Unmarshal(data, &intermediate)` on the zero envelope. -/
def unmarshalIntermediate : JVal → Except GoError intermediateMessage :=
  decodeStruct "json_rpc.intermediateMessage" intermediateMessage.decodeMember
    { JSONRPC := "", Method := none, Result := none, Error := none }

/-- `json.Unmarshal(data, &req)` on `ServerRequest{}`. -/
def unmarshalServerRequest : JVal → Except GoError ServerRequest :=
  decodeStruct "json_rpc.ServerRequest" ServerRequest.decodeMember
    { JSONRPC := "", Method := "", Params := [], Id := none }

/-- `json.Unmarshal(data, &resp)` on `ServerResponse{}`. -/
def unmarshalServerResponse : JVal → Except GoError ServerResponse :=
  decodeStruct "json_rpc.ServerResponse" ServerResponse.decodeMember
    { JSONRPC := "", Result := none, Error := none, Id := "" }

/-! ## json_rpc.go: decoding a message -/

/-- The method `(*ServerMessage).UnmarshalJSON`, on the value the bytes denote. It
returns the message as it stands afterwards and the error. -/
def ServerMessage.UnmarshalJSON (msg : ServerMessage) (data : JVal) :
    ServerMessage × Option GoError :=
  match unmarshalIntermediate data with
  | .error err => (msg, some err)
  | .ok intermediate =>
    if intermediate.Method.isSome then
      match unmarshalServerRequest data with
      | .error err => (msg, some err)
      | .ok req => ({ msg with ServerRequest := some req }, none)
    else if intermediate.Result.isSome || intermediate.Error.isSome then
      match unmarshalServerResponse data with
      | .error err => (msg, some err)
      | .ok resp => ({ msg with ServerResponse := some resp }, none)
    else
      (msg, some (.rpc (InvalidRequestObject
        "All valid JSONRPC requests have a 'method', 'result', or 'error' field.")))

/-- The bytes of one frame: the text of a JSON value, or not a JSON text at all. -/
inductive Wire where
  | malformed
  | json (v : JVal)

/-- `json.Unmarshal(data, msg)` for `msg : *ServerMessage`: the library checks the
syntax first and only then calls `UnmarshalJSON`. -/
def unmarshalServerMessage (msg : ServerMessage) : Wire → ServerMessage × Option GoError
  | .malformed => (msg, some (.other "invalid character looking for beginning of value"))
  | .json v => msg.UnmarshalJSON v

/-! ## Reading a frame member by member -/

/-- The member of an object that decides the field tagged `name`: the last one whose
key selects it. -/
def member (name : String) : List (String × JVal) → Option JVal
  | [] => none
  | m :: ms =>
    match member name ms with
    | some v => some v
    | none => if keyIs name m.1 then some m.2 else none

/-- The string a member holds, when there is a member and it holds a string. -/
def stringOf : Option JVal → Option String
  | some (.str s) => some s
  | _ => none

/-- The elements of the array a member holds, each as a raw message. -/
def paramsOf : Option JVal → List RawMessage
  | some (.arr elems) => elems.map RawMessage.json
  | _ => []

/-- The string a value holds, or `cur` when it holds none. -/
def stringOr (cur : String) : JVal → String
  | .str s => s
  | _ => cur

/-- Whether there is a member and it holds something other than `null`. -/
def nonNull : Option JVal → Bool
  | none => false
  | some .null => false
  | some _ => true

/-- A value a field of type `string` or `*string` accepts. -/
def strOrNull : JVal → Bool
  | .str _ => true
  | .null => true
  | _ => false

/-- A value a field of type `[]json.RawMessage` accepts. -/
def arrOrNull : JVal → Bool
  | .arr _ => true
  | .null => true
  | _ => false

/-- A value a field of type `int` accepts. -/
def intOrNull : JVal → Bool
  | .int i => decide (-9223372036854775808 ≤ i ∧ i ≤ 9223372036854775807)
  | .null => true
  | _ => false

/-- A member of an `error` object that `RPCError` accepts. -/
def errorMemberTyped (m : String × JVal) : Bool :=
  if keyIs "code" m.1 then intOrNull m.2
  else if keyIs "message" m.1 then strOrNull m.2
  else true

/-- A value a field of type `*RPCError` accepts. -/
def errorTyped : JVal → Bool
  | .null => true
  | .obj members => members.all errorMemberTyped
  | _ => false

/-- A member the envelope accepts: the field its key selects, if any, accepts its
value. -/
def envelopeTyped (m : String × JVal) : Bool :=
  if keyIs "jsonrpc" m.1 then strOrNull m.2
  else if keyIs "method" m.1 then strOrNull m.2
  else if keyIs "result" m.1 then true
  else if keyIs "error" m.1 then errorTyped m.2
  else true

/-- A member `ServerRequest` accepts. -/
def requestTyped (m : String × JVal) : Bool :=
  if keyIs "jsonrpc" m.1 then strOrNull m.2
  else if keyIs "method" m.1 then strOrNull m.2
  else if keyIs "params" m.1 then arrOrNull m.2
  else if keyIs "id" m.1 then strOrNull m.2
  else true

/-- A member `ServerResponse` accepts. -/
def responseTyped (m : String × JVal) : Bool :=
  if keyIs "jsonrpc" m.1 then strOrNull m.2
  else if keyIs "result" m.1 then true
  else if keyIs "error" m.1 then errorTyped m.2
  else if keyIs "id" m.1 then strOrNull m.2
  else true

/-- The errors the library reports for a value of the wrong JSON type; none of
them is an `*RPCError`. -/
def IsTypeError (e : GoError) : Prop := ∃ text, e = GoError.other text

/-- The frame of `TestUnmarshalRequest`:
`{"jsonrpc":"2.0","method":"test","params":[1,2,{"a":"b"}],"id":"1"}`. -/
def testFrameMembers : List (String × JVal) :=
  [("jsonrpc", .str "2.0"), ("method", .str "test"),
    ("params", .arr [.int 1, .int 2, .obj [("a", .str "b")]]), ("id", .str "1")]

/-- The frame `{"jsonrpc":"2.0","method":"m","params":{},"id":"1"}`. -/
def badParamsMembers : List (String × JVal) :=
  [("jsonrpc", .str "2.0"), ("method", .str "m"), ("params", .obj []), ("id", .str "1")]

/-- The frame of `TestMalformedError`:
`{"jsonrpc":"2.0","result":{"asdf":"zxcv"}, "id":123}`. -/
def numericIdMembers : List (String × JVal) :=
  [("jsonrpc", .str "2.0"), ("result", .obj [("asdf", .str "zxcv")]), ("id", .int 123)]

/-! ## json_rpc.go: building requests and responses -/

/-- The method `(*ServerRequest).Response`. `none` is the nil dereference of `*req.Id`
on a request without an id. -/
def ServerRequest.Response (req : ServerRequest) (result : GoValue) (err : Option GoError) :
    Option ClientResponse :=
  match req.Id with
  | none => none
  | some id =>
    let resp : ClientResponse := { JSONRPC := "2.0", Result := .nil, Error := none, Id := id }
    if !result.isNil then some { resp with Result := result }
    else
      match err with
      | some e => some { resp with Error := NewError e }
      | none =>
        -- All valid responses have a result or an error
        some { resp with Error := some (InvalidRequestObject
          "Server responded without result or error, oh my") }

/-- NewRequest. `id` is the `*int64`; a nil `id` makes a notification. -/
def NewRequest (method : String) (id : Option Int) (params : List GoValue) : ClientRequest :=
  { JSONRPC := "2.0", Method := method, Params := params,
    Id := id.map fun n => toString n }

/-- The method `(*ClientRequest).Response`. `none` is the nil dereference of `*req.Id`. -/
def ClientRequest.Response (req : ClientRequest) (result : RawMessage) (err : Option GoError) :
    Option ServerResponse :=
  match req.Id with
  | none => none
  | some id =>
    let resp : ServerResponse := { JSONRPC := "2.0", Result := none, Error := none, Id := id }
    match result, err with
    | .nil, some e => some { resp with Error := NewError e }
    | .nil, none => some resp
    | result, _ => some { resp with Result := some result }

/-! ## encoding/json, encoding side -/

/-- The encoding of an `interface{}`, or the text of the error of `json.Marshal`. -/
def encodeValue : GoValue → Except String JVal
  | .nil => .ok .null
  | .json v => .ok v
  | .unencodable text => .error text

/-- The encoding of a `[]interface{}`, element by element. -/
def encodeValues : List GoValue → Except String (List JVal)
  | [] => .ok []
  | v :: vs =>
    match encodeValue v with
    | .error text => .error text
    | .ok j =>
      match encodeValues vs with
      | .error text => .error text
      | .ok js => .ok (j :: js)

/-- The encoding of a `json.RawMessage`: a nil slice gives `null`, bytes that are
not a JSON text make `json.Marshal` fail. -/
def encodeRaw : RawMessage → Option JVal
  | .nil => some .null
  | .json v => some v
  | .garbage => none

/-- The encoding of a `*RPCError`; the nil pointer gives `null`. -/
def encodeError : Option RPCError → Option JVal
  | none => some .null
  | some e =>
    (encodeRaw e.Data).map fun d =>
      .obj [("code", .int e.Code), ("message", .str e.Message), ("data", d)]

/-- `json.Marshal(resp)` for a `*ClientResponse`. The tag of `Error` is
`json:"error",omitempty`, which names the field and has no further effect, so the
four members are always written. -/
def marshalClientResponse (resp : ClientResponse) : Option JVal :=
  match encodeValue resp.Result, encodeError resp.Error with
  | .ok result, some error =>
    some (.obj [("jsonrpc", .str resp.JSONRPC), ("result", result), ("error", error),
      ("id", .str resp.Id)])
  | _, _ => none

/-- `json.Marshal(req)` for a `*ClientRequest`, or the text of its error. The tag of
`Id` is `json:"id",omitempty`, which names the field and has no further effect. A
request without params holds the nil slice, written `null`. -/
def marshalClientRequest (req : ClientRequest) : Except String JVal :=
  match encodeValues req.Params with
  | .error text => .error text
  | .ok params =>
    .ok (.obj [("jsonrpc", .str req.JSONRPC), ("method", .str req.Method),
      ("params", if params.isEmpty then .null else .arr params),
      ("id", match req.Id with | some id => .str id | none => .null)])

end json_rpc

namespace bjrpc

open json_rpc

/-! ## type.go -/

/-- A value returned by `reflect.Value.Call`, by what `handleRequest` asks of it:
`Interface()`, `IsNil()` (`none` when the kind has no nil and `IsNil` faults) and the
assertion `Interface().(error)` (`none` when it fails). -/
structure Returned where
  Interface : GoValue
  IsNil : Option Bool
  asError : Option GoError

/-- A function value seen through `reflect`.
`In` has one entry per declared parameter, the last one being the slice `[]T` when
the function is variadic: what `json.Unmarshal` does with a raw param into a new
value of that parameter's type, giving the value or the text of the error.
`IsVariadic` is `IsVariadic()` of the function's type. `sliceAsElem` says whether the
type of the last parameter is assignable to its own element type, as `[]interface{}`
is to `interface{}` and `[]string` is not to `string`; it matters for a variadic
function only. `Call` is the function itself, on the arguments handed to
`reflect.Value.Call`. -/
structure Func where
  In : List (RawMessage → Except String GoValue)
  IsVariadic : Bool
  sliceAsElem : Bool
  Call : List GoValue → List Returned

/-- The call `handler.Call(callArgs)` of `reflect`, for arguments that have the types
of the parameters, one per parameter. For a variadic function `reflect` takes every
argument from the last parameter on as one element of the variadic slice, and faults
when it is not assignable to the element type; `handleRequest` passes the decoded
slice there. `none` is that fault, before the function is entered. -/
def Func.reflectCall (fn : Func) (callArgs : List GoValue) : Option (List Returned) :=
  if fn.IsVariadic && !fn.sliceAsElem then none else some (fn.Call callArgs)

/-- The types `requestHandler` and `notificationHandler`, both `interface{}`: the nil
interface, a value that is not a function, or a function. -/
inductive handlerValue where
  | nil
  | notFunc
  | func (f : Func)

abbrev requestHandler := handlerValue

abbrev notificationHandler := handlerValue

/-- The type `unknownHandler`. -/
abbrev unknownHandler := ServerRequest → Option ClientResponse

/-- CallResult: the response a call ended with. -/
structure CallResult where
  response : ServerResponse

/-- The `io.ReadWriter`, write side: the buffers handed to `Write`, oldest first, each
one frame followed by CRLF, and the errors the coming calls of `Write` return (a call
beyond the list succeeds). -/
structure Transport where
  written : List JVal
  results : List (Option GoError)

def Transport.Write (t : Transport) (data : JVal) : Transport × Option GoError :=
  match t.results with
  | [] => ({ t with written := t.written ++ [data] }, none)
  | r :: rest => ({ written := t.written ++ [data], results := rest }, r)

/-- What the engine did to code it does not own. -/
inductive Event where
  /-- A registered handler was called through `reflect`, with these arguments. -/
  | handler (notification : Bool) (method : String) (args : List GoValue)
  /-- The fallback was called with this request. -/
  | fallback (req : ServerRequest)
  /-- The completion stored for a call was called with this response; `done` names
  the channel it sends on. -/
  | callback (done : Nat) (resp : ServerResponse)

/-- The engine. `transportLock` is the state of the mutex: `true` when it is held.
`requestIdLock` is left out, as is `requestTimeout`, which nothing reads. A completion
is the closure `func(resp) { done <- &CallResult{resp} }` and is kept as the name of
its channel. Two fields are not in the source: `events` records the calls the engine
makes, and `chans` counts the channels made so far, so that `make(chan)` can name a
new one. -/
structure bjRPC where
  transportLock : Bool
  transport : Transport
  requestIds : List (String × Nat)
  requestHandlers : List (String × requestHandler)
  notificationHandlers : List (String × notificationHandler)
  fallback : Option unknownHandler
  _id : Int
  events : List Event
  chans : Nat

/-- How a method run by the read loop ends: it returns, it hits a run-time fault, or
it is suspended in `transportLock.Lock()` because the lock is held; either way `b` is
the state reached. -/
inductive Outcome where
  | returned (b : bjRPC)
  | panicked (b : bjRPC)
  | blocked (b : bjRPC)

def Outcome.state : Outcome → bjRPC
  | .returned b => b
  | .panicked b => b
  | .blocked b => b

def Outcome.isReturned : Outcome → Bool
  | .returned _ => true
  | .panicked _ => false
  | .blocked _ => false

/-- Whether the method got no further than `transportLock.Lock()`. -/
def Outcome.isBlocked : Outcome → Bool
  | .blocked _ => true
  | _ => false

/-! ## lib.go -/

/-- New, without options. -/
def New (transport : Transport) : bjRPC :=
  { transportLock := false, transport := transport, requestIds := [], requestHandlers := [],
    notificationHandlers := [], fallback := none, _id := 0, events := [], chans := 0 }

/-- The map assignment `m[name] = f`. -/
def mapSet {α : Type} (m : List (String × α)) (name : String) (f : α) : List (String × α) :=
  (name, f) :: m.filter fun e => e.1 != name

/-- The statement `delete(m, name)`. -/
def mapDelete {α : Type} (m : List (String × α)) (name : String) : List (String × α) :=
  m.filter fun e => e.1 != name

def bjRPC.AddRequestHandler (b : bjRPC) (name : String) (f : requestHandler) : bjRPC :=
  { b with requestHandlers := mapSet b.requestHandlers name f }

def bjRPC.AddNotificationHandler (b : bjRPC) (name : String) (f : notificationHandler) :
    bjRPC :=
  { b with notificationHandlers := mapSet b.notificationHandlers name f }

def bjRPC.SetUnknownHandler (b : bjRPC) (f : Option unknownHandler) : bjRPC :=
  { b with fallback := f }

def bjRPC.record (b : bjRPC) (e : Event) : bjRPC :=
  { b with events := b.events ++ [e] }

/-- The method `writeResponse`. A failure of `json.Marshal` or of `Write` is dropped.
With the response encoded it takes `transportLock` (line 238): when the lock is held
it goes no further; when it is free it writes and, returning, releases the lock. -/
def bjRPC.writeResponse (b : bjRPC) (req : ServerRequest) (res : GoValue)
    (err : Option GoError) : Outcome :=
  match req.Response res err with
  | none => .panicked b
  | some resp =>
    match marshalClientResponse resp with
    | none => .returned b
    | some data =>
      if b.transportLock then .blocked b
      else .returned { b with transport := (b.transport.Write data).1 }

/-- The loop of `handleRequest` that decodes the params (lines 170 to 187): the first
param that fails to decode ends it with that error. -/
def decodeArgs : List (RawMessage → Except String GoValue) → List RawMessage →
    Except String (List GoValue)
  | d :: ds, p :: ps =>
    match d p with
    | .error e => .error e
    | .ok arg =>
      match decodeArgs ds ps with
      | .error e => .error e
      | .ok args => .ok (arg :: args)
  | _, _ => .ok []

/-- The end of `handleRequest` (lines 190 to 215), once the handler has returned
`resp`. -/
def bjRPC.respond (b : bjRPC) (req : ServerRequest) (resp : List Returned) : Outcome :=
  if !req.IsNotification then
    match resp with
    | [result] => b.writeResponse req result.Interface none
    | [result, err] =>
      match err.IsNil with
      | none => .panicked b
      | some isNil =>
        if !isNil && err.asError.isNone then
          b.writeResponse req .nil (some (.rpc (NewUnretriableError
            "Incorrect return type for server function; second argument *must* be an error if present")))
        else
          match err.asError with
          | some rerr => b.writeResponse req .nil (some rerr)
          | none => b.writeResponse req result.Interface none
    | _ =>
      b.writeResponse req .nil (some (.rpc (NewUnretriableError
        "Incorrect return type for server function; must of have one or two returns")))
  else .returned b

/-- The part of `handleRequest` both branches run into (lines 164 to 215), from
`handler.Type()` on, for the value `handler = reflect.ValueOf(handlerfn)`. -/
def bjRPC.dispatch (b : bjRPC) (req : ServerRequest) (handlerfn : handlerValue) : Outcome :=
  match handlerfn with
  | .nil => .panicked b
  | .notFunc => .panicked b
  | .func fn =>
    let numArgs := fn.In.length
    if numArgs != req.Params.length then
      b.writeResponse req .nil (some (.rpc (InvalidParamsError
        ("Expected " ++ toString numArgs ++ " arguments"))))
    else
      match decodeArgs fn.In req.Params with
      | .error err => b.writeResponse req .nil (some (.rpc (InvalidParamsError err)))
      | .ok callArgs =>
        match fn.reflectCall callArgs with
        | none => .panicked b
        | some resp =>
          (b.record (.handler req.IsNotification req.Method callArgs)).respond req resp

/-- The sum of two `int64`, wrapping around as `atomic.AddInt64` does. -/
def addInt64 (a b : Int) : Int := (a + b + 9223372036854775808) % 18446744073709551616
  - 9223372036854775808

/-- How `Call` ends: it returns a result without waiting, or it is suspended in
`<-done` until its completion is called, holding `transportLock`. `panicked` is the
nil dereference in `Response`, which `Call` cannot reach since it always passes an
id. -/
inductive CallOutcome where
  | returned (b : bjRPC) (result : CallResult)
  | waiting (b : bjRPC) (done : Nat)
  | panicked (b : bjRPC)

/-- The method `Call`, up to the point where it waits for its completion. At line 90
it takes `transportLock`, after the wait for an earlier call to return if there is
one. When the write fails it returns and the deferred `Unlock` releases the lock;
when the write succeeds it is suspended in `<-done` and the lock stays held. -/
def bjRPC.Call (b : bjRPC) (method : String) (args : List GoValue) : CallOutcome :=
  let done := b.chans
  let id := addInt64 b._id 1
  let b := { b with chans := b.chans + 1, _id := id }
  let req := NewRequest method (some id) args
  match marshalClientRequest req with
  | .error text =>
    match req.Response .nil (some (.rpc (JsonParseError text))) with
    | none => .panicked b
    | some resp => .returned b { response := resp }
  | .ok reqBytes =>
    let b := { b with requestIds := mapSet b.requestIds (toString id) done }
    let b := { b with transportLock := true }
    let w := b.transport.Write reqBytes
    let b := { b with transport := w.1 }
    match w.2 with
    | some err =>
      -- Make the assumption that we won't hear back
      let b := { b with requestIds := mapDelete b.requestIds (toString id),
                        transportLock := false }
      match req.Response .nil (some (asError (NewError err))) with
      | none => .panicked b
      | some resp => .returned b { response := resp }
    | none => .waiting b done

/-- The end of `Call` (line 105), for a call suspended in `<-done`: it receives the
result its completion sends, the deferred `Unlock` releases `transportLock`, and
`Call` returns that result. -/
def bjRPC.callReturn (b : bjRPC) (result : CallResult) : CallOutcome :=
  .returned { b with transportLock := false } result

/-- The method `handleRequest`. -/
def bjRPC.handleRequest (b : bjRPC) (req : ServerRequest) : Outcome :=
  if req.IsNotification then
    match b.notificationHandlers.lookup req.Method with
    | none =>
      match b.fallback with
      | some _ => .returned (b.record (.fallback req))
      | none => b.dispatch req .nil
    | some handlerfn => b.dispatch req handlerfn
  else
    match b.requestHandlers.lookup req.Method with
    | none =>
      match b.fallback with
      | some _ => .returned (b.record (.fallback req))
      | none =>
        b.writeResponse req .nil (some (.rpc (MethodNotFoundError
          ("No such method: " ++ req.Method))))
    | some handlerfn => b.dispatch req handlerfn

/-- The method `handleResponse`. -/
def bjRPC.handleResponse (b : bjRPC) (resp : ServerResponse) : bjRPC :=
  match b.requestIds.lookup resp.Id with
  | none => b
  | some callback => b.record (.callback callback resp)

/-- The method `handleData`. -/
def bjRPC.handleData (b : bjRPC) (data : Wire) : Outcome :=
  let r := unmarshalServerMessage ServerMessage.fresh data
  match r.2, r.1.ServerRequest with
  | some err, some req =>
    match req.Id with
    | some _ =>
      match err.Error with
      | none => .panicked b
      | some text => b.writeResponse req .nil (some (.rpc (JsonParseError text)))
    | none => .returned b
  | _, _ =>
    match r.1.ServerRequest, r.1.ServerResponse with
    | some req, _ => b.handleRequest req
    | none, some resp => .returned (b.handleResponse resp)
    | none, none => .returned b

def CallOutcome.state : CallOutcome → bjRPC
  | .returned b _ => b
  | .waiting b _ => b
  | .panicked b => b

/-- The channel a suspended `Call` waits on. -/
def CallOutcome.waitsOn : CallOutcome → Option Nat
  | .waiting _ done => some done
  | _ => none

/-! ## Handlers and frames of the tests -/

/-- What `json.Unmarshal` does with a raw param into a new `string`. -/
def stringParam : RawMessage → Except String GoValue
  | .json (.str s) => .ok (.json (.str s))
  | .json .null => .ok (.json (.str ""))
  | .json v => .error ("json: cannot unmarshal " ++ v.kindName ++ " into Go value of type string")
  | .nil => .error "unexpected end of JSON input"
  | .garbage => .error "invalid character looking for beginning of value"

/-- The string a decoded `string` argument holds. -/
def argString : GoValue → String
  | .json (.str s) => s
  | _ => ""

/-- A nil value of type `error`, as returned through `reflect`. -/
def nilError : Returned := { Interface := .nil, IsNil := some true, asError := none }

/-- The handler of `TestRequestHandler`:
`func(a string) (*string, error) { str := "Called with " + a; return &str, nil }`. -/
def testMethod : Func :=
  { In := [stringParam], IsVariadic := false, sliceAsElem := false,
    Call := fun args =>
      [{ Interface := .json (.str ("Called with " ++ argString (args.headD .nil))),
         IsNil := some false, asError := none },
       nilError] }

/-- The handler `func() (interface{}, error) { return nil, nil }`. -/
def nilMethod : Func :=
  { In := [], IsVariadic := false, sliceAsElem := false,
    Call := fun _ => [{ Interface := .nil, IsNil := some true, asError := none }, nilError] }

/-- The handler `func() (float64, error) { return math.NaN(), nil }`. -/
def nanMethod : Func :=
  { In := [], IsVariadic := false, sliceAsElem := false,
    Call := fun _ =>
      [{ Interface := .unencodable "json: unsupported value: NaN", IsNil := none,
         asError := none },
       nilError] }

/-- What `json.Unmarshal` does with a raw param into a new `[]json.RawMessage`. -/
def rawSliceParam : RawMessage → Except String GoValue
  | .json (.arr elems) => .ok (.json (.arr elems))
  | .json .null => .ok (.json .null)
  | .json v =>
    .error ("json: cannot unmarshal " ++ v.kindName
      ++ " into Go value of type []json.RawMessage")
  | .nil => .error "unexpected end of JSON input"
  | .garbage => .error "invalid character looking for beginning of value"

/-- The handler
`func(parts ...json.RawMessage) (string, error) { return "many", nil }`. Its one
parameter has the type `[]json.RawMessage`, which is not assignable to
`json.RawMessage`. -/
def variadicMethod : Func :=
  { In := [rawSliceParam], IsVariadic := true, sliceAsElem := false,
    Call := fun _ =>
      [{ Interface := .json (.str "many"), IsNil := none, asError := none }, nilError] }

/-- The handler `func() {}`, which returns no value. -/
def voidMethod : Func :=
  { In := [], IsVariadic := false, sliceAsElem := false, Call := fun _ => [] }

/-- The handler `func() (string, *int) { n := 1; return "x", &n }`, whose second value
is not nil and is not an `error`. -/
def pairMethod : Func :=
  { In := [], IsVariadic := false, sliceAsElem := false,
    Call := fun _ =>
      [{ Interface := .json (.str "x"), IsNil := none, asError := none },
       { Interface := .json (.int 1), IsNil := some false, asError := none }] }

/-- The handler `func() string { return "pong" }`, with one value and no error. -/
def pingMethod : Func :=
  { In := [], IsVariadic := false, sliceAsElem := false,
    Call := fun _ => [{ Interface := .json (.str "pong"), IsNil := none, asError := none }] }

/-- A transport on which nothing has been written and every `Write` succeeds. -/
def emptyTransport : Transport := { written := [], results := [] }

/-- The server of `TestRequestHandler`. -/
def testServer : bjRPC := (New emptyTransport).AddRequestHandler "TestMethod" (.func testMethod)

/-- A server with the handlers `nilMethod`, `nanMethod`, `variadicMethod`,
`voidMethod` and `pairMethod`. -/
def oddServer : bjRPC :=
  (((((New emptyTransport).AddRequestHandler "Nil" (.func nilMethod)).AddRequestHandler "NaN"
    (.func nanMethod)).AddRequestHandler "Variadic" (.func variadicMethod)).AddRequestHandler
    "Void" (.func voidMethod)).AddRequestHandler "Pair" (.func pairMethod)

/-- The server of `TestRequestHandler` after it has made a call of its own,
`Call("Other")`, that is not answered yet: the call is suspended in `<-done` and
holds `transportLock`. -/
def callingServer : bjRPC := (testServer.Call "Other" []).state

/-- The frame `Call("Other")` writes as the first call of an engine. -/
def otherCallFrame : JVal :=
  .obj [("jsonrpc", .str "2.0"), ("method", .str "Other"), ("params", .null), ("id", .str "1")]

/-- A request for `Variadic` with the id "3" and one param, the array `[1,2]`. -/
def variadicRequest : ServerRequest :=
  { JSONRPC := "2.0", Method := "Variadic", Params := [.json (.arr [.int 1, .int 2])],
    Id := some "3" }

/-- A server with the handler `pingMethod`. -/
def pingServer : bjRPC := (New emptyTransport).AddRequestHandler "Ping" (.func pingMethod)

/-- An engine with `testMethod` as a notification handler. -/
def notifiedServer : bjRPC :=
  (New emptyTransport).AddNotificationHandler "TestMethod" (.func testMethod)

/-- The request `Call("TestMethod", "str")` puts on the wire, decoded. -/
def testRequest : ServerRequest :=
  { JSONRPC := "2.0", Method := "TestMethod", Params := [.json (.str "str")], Id := some "1" }

/-- The notification `Notify("TestMethod", "str")` puts on the wire, decoded. -/
def testNotification : ServerRequest :=
  { JSONRPC := "2.0", Method := "TestMethod", Params := [.json (.str "str")], Id := none }

/-- A request for `method` without params, with the given id or as a notification. -/
def bareRequest (method : String) (id : Option String) : ServerRequest :=
  { JSONRPC := "2.0", Method := method, Params := [], Id := id }

/-- A successful response to the call of id `id`. -/
def okResponse (id : String) : ServerResponse :=
  { JSONRPC := "2.0", Result := some (.json (.str "ok")), Error := none, Id := id }

/-- An engine whose one call has been answered: `Call("Test")` has written its
request, the response for "1" has been read and handed to the completion, and the
call has returned. -/
def answeredEngine : bjRPC :=
  ((((New emptyTransport).Call "Test" []).state.handleResponse (okResponse "1")).callReturn
    { response := okResponse "1" }).state

/-- The frame `{"jsonrpc":"2.0","method":"m","params":{},"id":"1"}`. -/
def badParamsFrame : JVal := .obj badParamsMembers

/-- The frame `{"jsonrpc":"2.0","result":null,"error":{"code":c,"message":m,"data":null},
"id":i}`. -/
def errorFrame (id : String) (code : Int) (message : String) : JVal :=
  .obj [("jsonrpc", .str "2.0"), ("result", .null),
    ("error", .obj [("code", .int code), ("message", .str message), ("data", .null)]),
    ("id", .str id)]

end bjrpc

namespace json_rpc

/-! ## Re-encoding a decoded request -/

/-- The encoding of a `[]json.RawMessage`, element by element; `none` when an element
is not a JSON text. -/
def encodeRaws : List RawMessage → Option (List JVal)
  | [] => some []
  | p :: ps =>
    match encodeRaw p, encodeRaws ps with
    | some j, some js => some (j :: js)
    | _, _ => none

/-- `json.Marshal(req)` for a `*ServerRequest`; `none` when it fails. As for
`ClientRequest`, the four members are always written. Params without elements are
written `null`, as the nil slice is; the library writes `[]` for a slice that is
empty and not nil, and both decode to no params. -/
def marshalServerRequest (req : ServerRequest) : Option JVal :=
  match encodeRaws req.Params with
  | none => none
  | some params =>
    some (.obj [("jsonrpc", .str req.JSONRPC), ("method", .str req.Method),
      ("params", if params.isEmpty then .null else .arr params),
      ("id", match req.Id with | some id => .str id | none => .null)])

/-! ## Reading a decimal string -/

/-- The digit a character stands for. -/
def digitVal (c : Char) : Nat := c.toNat - 48

/-- The number a list of decimal digits stands for, most significant digit first. -/
def decimalValue (cs : List Char) : Nat := cs.foldl (fun acc c => 10 * acc + digitVal c) 0

/-- The integer a decimal string stands for, with `-` in front of a negative one. -/
def decimalInt (s : String) : Int :=
  match s.data with
  | [] => 0
  | c :: cs => if c = '-' then -(decimalValue cs : Int) else (decimalValue (c :: cs) : Int)

end json_rpc

namespace bjrpc

open json_rpc

/-! ## type.go and lib.go: the result of a call, the identifiers of calls -/

/-- The method `(*CallResult).Error`. It returns the `*RPCError` of the response as an
`error`, so the interface it returns is never nil, even around a nil pointer. -/
def CallResult.Error (c : CallResult) : Option GoError := some (asError c.response.Error)

/-- The request `req` that `Call` builds (lines 75 to 77); its `Id` is the identifier
the call issues. -/
def bjRPC.callRequest (b : bjRPC) (method : String) (args : List GoValue) : ClientRequest :=
  NewRequest method (some (addInt64 b._id 1)) args

/-- The result a `Call` returned without waiting, if it did. -/
def CallOutcome.result : CallOutcome → Option CallResult
  | .returned _ result => some result
  | _ => none

/-- The identifiers issued by a sequence of calls on one engine, each call given by
its method and arguments and started in the state the one before left. -/
def bjRPC.issuedIds : bjRPC → List (String × List GoValue) → List (Option String)
  | _, [] => []
  | b, call :: calls =>
    (b.callRequest call.1 call.2).Id :: (b.Call call.1 call.2).state.issuedIds calls

/-- A transport whose next `Write` fails with `err`. -/
def failingTransport (err : GoError) : Transport := { written := [], results := [some err] }

/-- The engine after `n` calls of `Call("Test")`, one after the other. -/
def bjRPC.afterCalls (b : bjRPC) : Nat → bjRPC
  | 0 => b
  | n + 1 => ((b.afterCalls n).Call "Test" []).state

/-- A transport on which 2^64 calls of `Write` succeed and the next one fails. -/
def wrappingTransport : Transport :=
  { written := [],
    results := List.replicate 18446744073709551616 none ++ [some (.other "broken pipe")] }

/-- A new engine after 2^64 calls: the counter has gone all the way round. -/
def wrappedEngine : bjRPC := (New wrappingTransport).afterCalls 18446744073709551616

/-- What matters of `wrappedEngine`, written out: the counter holds 0, "1" is in the
table, the next `Write` fails. -/
def wrappedState : bjRPC :=
  { New (failingTransport (.other "broken pipe")) with requestIds := [("1", 0)], chans := 1 }

/-- An engine on which two calls have been made and are outstanding. -/
def busyEngine : bjRPC := (((New emptyTransport).Call "a" []).state.Call "b" []).state

/-- A fallback that answers nothing. -/
def silentFallback : unknownHandler := fun _ => none

end bjrpc

/-! # Theorems -/

namespace json_rpc

/-! ## Decoding, member by member -/

theorem keyIs_foldName {n k : String} (h : keyIs n k = true) : foldName k = foldName n := by
  unfold keyIs at h
  rcases Bool.or_eq_true _ _ |>.mp h with h | h
  · rw [beq_iff_eq.mp h]
  · exact beq_iff_eq.mp h

theorem keyIs_disjoint {n n' k : String} (hne : foldName n ≠ foldName n')
    (h : keyIs n k = true) : keyIs n' k = false := by
  cases h' : keyIs n' k with
  | false => rfl
  | true => exact absurd ((keyIs_foldName h).symm.trans (keyIs_foldName h')) hne

theorem decodeMembers_fold {σ β : Type} (step : σ → String × JVal → Except GoError σ)
    (proj : σ → β) (name : String) (upd : β → JVal → β)
    (hstep : ∀ s m s', step s m = .ok s' →
      proj s' = if keyIs name m.1 then upd (proj s) m.2 else proj s) :
    ∀ (ms : List (String × JVal)) (s s' : σ), decodeMembers step s ms = .ok s' →
      proj s' = ms.foldl (fun acc m => if keyIs name m.1 then upd acc m.2 else acc) (proj s) := by
  intro ms
  induction ms with
  | nil =>
    intro s s' h
    simp only [decodeMembers, Except.ok.injEq] at h
    simp [h]
  | cons m ms ih =>
    intro s s' h
    simp only [decodeMembers] at h
    cases hs : step s m with
    | error e => simp [hs] at h
    | ok s1 =>
      simp only [hs] at h
      rw [ih s1 s' h, hstep s m s1 hs]
      rfl

theorem foldl_member_none {β : Type} (name : String) (upd : β → JVal → β) :
    ∀ (ms : List (String × JVal)) (acc : β), member name ms = none →
      ms.foldl (fun acc m => if keyIs name m.1 then upd acc m.2 else acc) acc = acc := by
  intro ms
  induction ms with
  | nil => intro acc _; rfl
  | cons m ms ih =>
    intro acc h
    simp only [member] at h
    cases hm : member name ms with
    | some v => simp [hm] at h
    | none =>
      simp only [hm] at h
      have hk : keyIs name m.1 = false := by
        cases hk : keyIs name m.1 with
        | false => rfl
        | true => simp [hk] at h
      simp only [List.foldl_cons, hk, Bool.false_eq_true, if_false]
      exact ih acc hm

theorem foldl_member_some {β : Type} (name : String) (upd : β → JVal → β) (v : JVal)
    (hconst : ∀ a a', upd a v = upd a' v) :
    ∀ (ms : List (String × JVal)) (acc : β), member name ms = some v →
      ms.foldl (fun acc m => if keyIs name m.1 then upd acc m.2 else acc) acc = upd acc v := by
  intro ms
  induction ms with
  | nil => intro acc h; simp [member] at h
  | cons m ms ih =>
    intro acc h
    simp only [member] at h
    simp only [List.foldl_cons]
    cases hm : member name ms with
    | some v' =>
      simp only [hm, Option.some.injEq] at h
      subst h
      rw [ih _ hm]
      exact hconst _ _
    | none =>
      simp only [hm] at h
      rw [foldl_member_none name upd ms _ hm]
      cases hk : keyIs name m.1 with
      | false => simp [hk] at h
      | true =>
        simp only [hk, if_true, Option.some.injEq] at h
        simp [h]

theorem Except_map_ok {ε α β : Type} {f : α → β} {e : Except ε α} {y : β}
    (h : e.map f = .ok y) : ∃ x, e = .ok x ∧ y = f x := by
  cases e with
  | error err => simp [Except.map] at h
  | ok x => exact ⟨x, rfl, by simpa [Except.map] using h.symm⟩

theorem decodeString_ok {cur x : String} {v : JVal} (h : decodeString cur v = .ok x) :
    x = stringOr cur v := by
  cases v <;> simp [decodeString] at h <;> simp [h, stringOr]

theorem decodeStringPtr_ok {p : Option String} {v : JVal} (h : decodeStringPtr v = .ok p) :
    p = stringOf (some v) := by
  cases v <;> simp [decodeStringPtr] at h <;> simp [h, stringOf]

theorem decodeRawSlice_ok {ps : List RawMessage} {v : JVal} (h : decodeRawSlice v = .ok ps) :
    ps = paramsOf (some v) := by
  cases v <;> simp [decodeRawSlice] at h <;> simp [h, paramsOf]

theorem decodeErrorPtr_ok {cur p : Option RPCError} {v : JVal}
    (h : decodeErrorPtr cur v = .ok p) : p.isSome = nonNull (some v) := by
  cases v with
  | obj ms =>
    simp only [decodeErrorPtr] at h
    obtain ⟨x, _, hx⟩ := Except_map_ok h
    simp [hx, nonNull]
  | null => simp [decodeErrorPtr] at h; simp [← h, nonNull]
  | _ => simp [decodeErrorPtr] at h

theorem decodeRawPtr_isSome (v : JVal) : (decodeRawPtr v).isSome = nonNull (some v) := by
  cases v <;> rfl

theorem ServerRequest_decodeMember_Method (s : ServerRequest) (m : String × JVal)
    (s' : ServerRequest) (h : ServerRequest.decodeMember s m = .ok s') :
    s'.Method = if keyIs "method" m.1 then stringOr s.Method m.2 else s.Method := by
  unfold ServerRequest.decodeMember at h
  split_ifs at h with h1 h2 h3 h4
  · obtain ⟨x, _, hx⟩ := Except_map_ok h
    have hk : keyIs "method" m.1 = false := keyIs_disjoint (by decide) h1
    rw [hx, hk]
    rfl
  · obtain ⟨x, hd, hx⟩ := Except_map_ok h
    rw [hx, if_pos h2]
    exact decodeString_ok hd
  · obtain ⟨x, _, hx⟩ := Except_map_ok h
    rw [hx, if_neg h2]
  · obtain ⟨x, _, hx⟩ := Except_map_ok h
    rw [hx, if_neg h2]
  · simp only [Except.ok.injEq] at h
    rw [← h, if_neg h2]

theorem ServerRequest_decodeMember_Params (s : ServerRequest) (m : String × JVal)
    (s' : ServerRequest) (h : ServerRequest.decodeMember s m = .ok s') :
    s'.Params = if keyIs "params" m.1 then paramsOf (some m.2) else s.Params := by
  unfold ServerRequest.decodeMember at h
  split_ifs at h with h1 h2 h3 h4
  · obtain ⟨x, _, hx⟩ := Except_map_ok h
    have hk : keyIs "params" m.1 = false := keyIs_disjoint (by decide) h1
    rw [hx, hk]
    rfl
  · obtain ⟨x, _, hx⟩ := Except_map_ok h
    have hk : keyIs "params" m.1 = false := keyIs_disjoint (by decide) h2
    rw [hx, hk]
    rfl
  · obtain ⟨x, hd, hx⟩ := Except_map_ok h
    rw [hx, if_pos h3]
    exact decodeRawSlice_ok hd
  · obtain ⟨x, _, hx⟩ := Except_map_ok h
    rw [hx, if_neg h3]
  · simp only [Except.ok.injEq] at h
    rw [← h, if_neg h3]

theorem ServerRequest_decodeMember_Id (s : ServerRequest) (m : String × JVal)
    (s' : ServerRequest) (h : ServerRequest.decodeMember s m = .ok s') :
    s'.Id = if keyIs "id" m.1 then stringOf (some m.2) else s.Id := by
  unfold ServerRequest.decodeMember at h
  split_ifs at h with h1 h2 h3 h4
  · obtain ⟨x, _, hx⟩ := Except_map_ok h
    have hk : keyIs "id" m.1 = false := keyIs_disjoint (by decide) h1
    rw [hx, hk]
    rfl
  · obtain ⟨x, _, hx⟩ := Except_map_ok h
    have hk : keyIs "id" m.1 = false := keyIs_disjoint (by decide) h2
    rw [hx, hk]
    rfl
  · obtain ⟨x, _, hx⟩ := Except_map_ok h
    have hk : keyIs "id" m.1 = false := keyIs_disjoint (by decide) h3
    rw [hx, hk]
    rfl
  · obtain ⟨x, hd, hx⟩ := Except_map_ok h
    rw [hx, if_pos h4]
    exact decodeStringPtr_ok hd
  · simp only [Except.ok.injEq] at h
    rw [← h, if_neg h4]

theorem intermediateMessage_decodeMember_Method (s : intermediateMessage) (m : String × JVal)
    (s' : intermediateMessage) (h : intermediateMessage.decodeMember s m = .ok s') :
    s'.Method = if keyIs "method" m.1 then stringOf (some m.2) else s.Method := by
  unfold intermediateMessage.decodeMember at h
  split_ifs at h with h1 h2 h3 h4
  · obtain ⟨x, _, hx⟩ := Except_map_ok h
    have hk : keyIs "method" m.1 = false := keyIs_disjoint (by decide) h1
    rw [hx, hk]
    rfl
  · obtain ⟨x, hd, hx⟩ := Except_map_ok h
    rw [hx, if_pos h2]
    exact decodeStringPtr_ok hd
  · simp only [Except.ok.injEq] at h
    rw [← h, if_neg h2]
  · obtain ⟨x, _, hx⟩ := Except_map_ok h
    rw [hx, if_neg h2]
  · simp only [Except.ok.injEq] at h
    rw [← h, if_neg h2]

theorem intermediateMessage_decodeMember_Result (s : intermediateMessage) (m : String × JVal)
    (s' : intermediateMessage) (h : intermediateMessage.decodeMember s m = .ok s') :
    s'.Result.isSome = if keyIs "result" m.1 then nonNull (some m.2) else s.Result.isSome := by
  unfold intermediateMessage.decodeMember at h
  split_ifs at h with h1 h2 h3 h4
  · obtain ⟨x, _, hx⟩ := Except_map_ok h
    have hk : keyIs "result" m.1 = false := keyIs_disjoint (by decide) h1
    rw [hx, hk]
    rfl
  · obtain ⟨x, _, hx⟩ := Except_map_ok h
    have hk : keyIs "result" m.1 = false := keyIs_disjoint (by decide) h2
    rw [hx, hk]
    rfl
  · simp only [Except.ok.injEq] at h
    rw [← h, if_pos h3]
    exact decodeRawPtr_isSome m.2
  · obtain ⟨x, _, hx⟩ := Except_map_ok h
    rw [hx, if_neg h3]
  · simp only [Except.ok.injEq] at h
    rw [← h, if_neg h3]

theorem intermediateMessage_decodeMember_Error (s : intermediateMessage) (m : String × JVal)
    (s' : intermediateMessage) (h : intermediateMessage.decodeMember s m = .ok s') :
    s'.Error.isSome = if keyIs "error" m.1 then nonNull (some m.2) else s.Error.isSome := by
  unfold intermediateMessage.decodeMember at h
  split_ifs at h with h1 h2 h3 h4
  · obtain ⟨x, _, hx⟩ := Except_map_ok h
    have hk : keyIs "error" m.1 = false := keyIs_disjoint (by decide) h1
    rw [hx, hk]
    rfl
  · obtain ⟨x, _, hx⟩ := Except_map_ok h
    have hk : keyIs "error" m.1 = false := keyIs_disjoint (by decide) h2
    rw [hx, hk]
    rfl
  · simp only [Except.ok.injEq] at h
    have hk : keyIs "error" m.1 = false := keyIs_disjoint (by decide) h3
    rw [← h, hk]
    rfl
  · obtain ⟨x, hd, hx⟩ := Except_map_ok h
    rw [hx, if_pos h4]
    exact decodeErrorPtr_ok hd
  · simp only [Except.ok.injEq] at h
    rw [← h, if_neg h4]

/-- How a field that the last selecting member decides reads off the frame. -/
theorem decodeMembers_member {σ β : Type} (step : σ → String × JVal → Except GoError σ)
    (proj : σ → β) (name : String) (f : Option JVal → β)
    (hstep : ∀ s m s', step s m = .ok s' →
      proj s' = if keyIs name m.1 then f (some m.2) else proj s)
    (ms : List (String × JVal)) (s s' : σ) (h : decodeMembers step s ms = .ok s')
    (hzero : proj s = f none) : proj s' = f (member name ms) := by
  have h1 := decodeMembers_fold step proj name (fun _ v => f (some v)) hstep ms s s' h
  cases hm : member name ms with
  | none =>
    exact h1.trans ((foldl_member_none name (fun _ v => f (some v)) ms (proj s) hm).trans hzero)
  | some v =>
    exact h1.trans
      (foldl_member_some name (fun _ v => f (some v)) v (fun _ _ => rfl) ms (proj s) hm)

theorem unmarshalIntermediate_fields (ms : List (String × JVal)) (im : intermediateMessage)
    (h : unmarshalIntermediate (.obj ms) = .ok im) :
    im.Method = stringOf (member "method" ms) ∧
    im.Result.isSome = nonNull (member "result" ms) ∧
    im.Error.isSome = nonNull (member "error" ms) := by
  simp only [unmarshalIntermediate, decodeStruct] at h
  exact ⟨decodeMembers_member _ (·.Method) "method" stringOf
      intermediateMessage_decodeMember_Method ms _ im h rfl,
    decodeMembers_member _ (·.Result.isSome) "result" nonNull
      intermediateMessage_decodeMember_Result ms _ im h rfl,
    decodeMembers_member _ (·.Error.isSome) "error" nonNull
      intermediateMessage_decodeMember_Error ms _ im h rfl⟩

theorem unmarshalServerRequest_fields (ms : List (String × JVal)) (req : ServerRequest)
    (h : unmarshalServerRequest (.obj ms) = .ok req) :
    (∀ m, member "method" ms = some (.str m) → req.Method = m) ∧
    req.Params = paramsOf (member "params" ms) ∧
    req.Id = stringOf (member "id" ms) := by
  simp only [unmarshalServerRequest, decodeStruct] at h
  refine ⟨?_, decodeMembers_member _ (·.Params) "params" paramsOf
      ServerRequest_decodeMember_Params ms _ req h rfl,
    decodeMembers_member _ (·.Id) "id" stringOf
      ServerRequest_decodeMember_Id ms _ req h rfl⟩
  intro m hm
  have h1 := decodeMembers_fold _ (·.Method) "method" stringOr
    ServerRequest_decodeMember_Method ms _ req h
  exact h1.trans (foldl_member_some "method" stringOr (.str m) (fun _ _ => rfl) ms _ hm)

theorem Except_map_error {ε α β : Type} {f : α → β} {e : Except ε α} {err : ε}
    (h : e.map f = .error err) : e = .error err := by
  cases e with
  | error err' => simpa [Except.map] using h
  | ok x => simp [Except.map] at h

theorem decodeString_error {cur : String} {v : JVal} {e : GoError}
    (h : decodeString cur v = .error e) : IsTypeError e := by
  cases v <;> simp [decodeString, typeError] at h <;> exact ⟨_, h.symm⟩

theorem decodeStringPtr_error {v : JVal} {e : GoError}
    (h : decodeStringPtr v = .error e) : IsTypeError e := by
  cases v <;> simp [decodeStringPtr, typeError] at h <;> exact ⟨_, h.symm⟩

theorem decodeRawSlice_error {v : JVal} {e : GoError}
    (h : decodeRawSlice v = .error e) : IsTypeError e := by
  cases v <;> simp [decodeRawSlice, typeError] at h <;> exact ⟨_, h.symm⟩

theorem decodeInt_error {cur : Int} {v : JVal} {e : GoError}
    (h : decodeInt cur v = .error e) : IsTypeError e := by
  cases v with
  | int i =>
    simp only [decodeInt] at h
    split_ifs at h
    simp only [typeError, Except.error.injEq] at h
    exact ⟨_, h.symm⟩
  | _ => simp [decodeInt, typeError] at h <;> exact ⟨_, h.symm⟩

theorem decodeMembers_error {σ : Type} (step : σ → String × JVal → Except GoError σ)
    (hstep : ∀ s m e, step s m = .error e → IsTypeError e) :
    ∀ (ms : List (String × JVal)) (s : σ) (e : GoError),
      decodeMembers step s ms = .error e → IsTypeError e := by
  intro ms
  induction ms with
  | nil => intro s e h; simp [decodeMembers] at h
  | cons m ms ih =>
    intro s e h
    simp only [decodeMembers] at h
    cases hs : step s m with
    | error e' =>
      simp only [hs, Except.error.injEq] at h
      exact h ▸ hstep s m e' hs
    | ok s1 =>
      simp only [hs] at h
      exact ih s1 e h

theorem RPCError_decodeMember_error (s : RPCError) (m : String × JVal) (e : GoError)
    (h : RPCError.decodeMember s m = .error e) : IsTypeError e := by
  unfold RPCError.decodeMember at h
  split_ifs at h
  · exact decodeInt_error (Except_map_error h)
  · exact decodeString_error (Except_map_error h)

theorem decodeErrorPtr_error {cur : Option RPCError} {v : JVal} {e : GoError}
    (h : decodeErrorPtr cur v = .error e) : IsTypeError e := by
  cases v with
  | obj ms =>
    simp only [decodeErrorPtr] at h
    exact decodeMembers_error _ RPCError_decodeMember_error ms _ e (Except_map_error h)
  | null => simp [decodeErrorPtr] at h
  | _ => simp [decodeErrorPtr, typeError] at h; exact ⟨_, h.symm⟩

theorem intermediateMessage_decodeMember_error (s : intermediateMessage) (m : String × JVal)
    (e : GoError) (h : intermediateMessage.decodeMember s m = .error e) : IsTypeError e := by
  unfold intermediateMessage.decodeMember at h
  split_ifs at h
  · exact decodeString_error (Except_map_error h)
  · exact decodeStringPtr_error (Except_map_error h)
  · exact decodeErrorPtr_error (Except_map_error h)

theorem ServerRequest_decodeMember_error (s : ServerRequest) (m : String × JVal)
    (e : GoError) (h : ServerRequest.decodeMember s m = .error e) : IsTypeError e := by
  unfold ServerRequest.decodeMember at h
  split_ifs at h
  · exact decodeString_error (Except_map_error h)
  · exact decodeString_error (Except_map_error h)
  · exact decodeRawSlice_error (Except_map_error h)
  · exact decodeStringPtr_error (Except_map_error h)

theorem ServerResponse_decodeMember_error (s : ServerResponse) (m : String × JVal)
    (e : GoError) (h : ServerResponse.decodeMember s m = .error e) : IsTypeError e := by
  unfold ServerResponse.decodeMember at h
  split_ifs at h
  · exact decodeString_error (Except_map_error h)
  · exact decodeErrorPtr_error (Except_map_error h)
  · exact decodeString_error (Except_map_error h)

theorem isOk_map {ε α β : Type} (f : α → β) (e : Except ε α) : (e.map f).isOk = e.isOk := by
  cases e <;> rfl

theorem decodeString_isOk (cur : String) (v : JVal) :
    (decodeString cur v).isOk = strOrNull v := by
  cases v <;> rfl

theorem decodeStringPtr_isOk (v : JVal) : (decodeStringPtr v).isOk = strOrNull v := by
  cases v <;> rfl

theorem decodeRawSlice_isOk (v : JVal) : (decodeRawSlice v).isOk = arrOrNull v := by
  cases v <;> rfl

theorem decodeInt_isOk (cur : Int) (v : JVal) : (decodeInt cur v).isOk = intOrNull v := by
  cases v with
  | int i =>
    simp only [decodeInt, intOrNull]
    split_ifs with h <;> simp [Except.isOk, Except.toBool, h]
  | _ => rfl

theorem decodeMembers_isOk {σ : Type} (step : σ → String × JVal → Except GoError σ)
    (typed : String × JVal → Bool) (hstep : ∀ s m, (step s m).isOk = typed m) :
    ∀ (ms : List (String × JVal)) (s : σ), (decodeMembers step s ms).isOk = ms.all typed := by
  intro ms
  induction ms with
  | nil => intro s; rfl
  | cons m ms ih =>
    intro s
    have h := hstep s m
    simp only [decodeMembers, List.all_cons]
    cases hs : step s m with
    | error e =>
      rw [hs] at h
      rw [← h]
      rfl
    | ok s1 =>
      rw [hs] at h
      rw [← h]
      simpa [Except.isOk, Except.toBool] using ih s1

theorem RPCError_decodeMember_isOk (s : RPCError) (m : String × JVal) :
    (RPCError.decodeMember s m).isOk = errorMemberTyped m := by
  unfold RPCError.decodeMember errorMemberTyped
  split_ifs
  · rw [isOk_map, decodeInt_isOk]
  · rw [isOk_map, decodeString_isOk]
  · rfl
  · rfl

theorem decodeErrorPtr_isOk (cur : Option RPCError) (v : JVal) :
    (decodeErrorPtr cur v).isOk = errorTyped v := by
  cases v with
  | obj ms =>
    simp only [decodeErrorPtr, errorTyped]
    rw [isOk_map]
    exact decodeMembers_isOk _ _ RPCError_decodeMember_isOk ms _
  | _ => rfl

theorem intermediateMessage_decodeMember_isOk (s : intermediateMessage) (m : String × JVal) :
    (intermediateMessage.decodeMember s m).isOk = envelopeTyped m := by
  unfold intermediateMessage.decodeMember envelopeTyped
  split_ifs
  · rw [isOk_map, decodeString_isOk]
  · rw [isOk_map, decodeStringPtr_isOk]
  · rfl
  · rw [isOk_map, decodeErrorPtr_isOk]
  · rfl

theorem ServerRequest_decodeMember_isOk (s : ServerRequest) (m : String × JVal) :
    (ServerRequest.decodeMember s m).isOk = requestTyped m := by
  unfold ServerRequest.decodeMember requestTyped
  split_ifs
  · rw [isOk_map, decodeString_isOk]
  · rw [isOk_map, decodeString_isOk]
  · rw [isOk_map, decodeRawSlice_isOk]
  · rw [isOk_map, decodeStringPtr_isOk]
  · rfl

theorem ServerResponse_decodeMember_isOk (s : ServerResponse) (m : String × JVal) :
    (ServerResponse.decodeMember s m).isOk = responseTyped m := by
  unfold ServerResponse.decodeMember responseTyped
  split_ifs
  · rw [isOk_map, decodeString_isOk]
  · rfl
  · rw [isOk_map, decodeErrorPtr_isOk]
  · rw [isOk_map, decodeString_isOk]
  · rfl

theorem isOk_true {ε α : Type} {e : Except ε α} (h : e.isOk = true) : ∃ x, e = .ok x := by
  cases e with
  | error err => simp [Except.isOk, Except.toBool] at h
  | ok x => exact ⟨x, rfl⟩

theorem isOk_false {ε α : Type} {e : Except ε α} (h : e.isOk = false) : ∃ err, e = .error err := by
  cases e with
  | error err => exact ⟨err, rfl⟩
  | ok x => simp [Except.isOk, Except.toBool] at h

theorem unmarshalIntermediate_isOk (ms : List (String × JVal)) :
    (unmarshalIntermediate (.obj ms)).isOk = ms.all envelopeTyped :=
  decodeMembers_isOk _ _ intermediateMessage_decodeMember_isOk ms _

theorem unmarshalServerRequest_isOk (ms : List (String × JVal)) :
    (unmarshalServerRequest (.obj ms)).isOk = ms.all requestTyped :=
  decodeMembers_isOk _ _ ServerRequest_decodeMember_isOk ms _

theorem unmarshalServerResponse_isOk (ms : List (String × JVal)) :
    (unmarshalServerResponse (.obj ms)).isOk = ms.all responseTyped :=
  decodeMembers_isOk _ _ ServerResponse_decodeMember_isOk ms _

/-- C9, amended. A JSON object decoded into a new `ServerMessage`. A member is well
typed for a shape when the field its key selects, if any, accepts its value: a string
or `null` for `jsonrpc`, `method` and `id`, an array or `null` for `params`, anything
for `result`, `null` or an object with an integer `code` and a string `message` for
`error`. If some member is ill typed for the envelope, decoding fails with a type
error of the library and the message is neither a request nor a response. If not:
when `method` holds a string, the frame is decoded as a request (and not a response)
with that method, the elements of `params` in order as raw values and the string of
`id`, provided all members are well typed for a request, and decoding fails with a
type error, the message being neither, when one is not; when `method` is absent or
`null` and `result` or `error` holds a value other than `null`, the frame is decoded
as a response (and not a request) provided all members are well typed for a response,
and decoding fails with a type error, the message being neither, when one is not;
when none of the three holds a value other than `null`, decoding fails with an
`RPCError` of code -32600 and the message is neither. -/
theorem UnmarshalJSON_frame (ms : List (String × JVal)) :
    (ms.all envelopeTyped = false →
      (ServerMessage.fresh.UnmarshalJSON (.obj ms)).1 = ServerMessage.fresh ∧
      ∃ e, (ServerMessage.fresh.UnmarshalJSON (.obj ms)).2 = some e ∧ IsTypeError e) ∧
    (ms.all envelopeTyped = true → ∀ m, member "method" ms = some (.str m) →
      (ms.all requestTyped = true →
        (ServerMessage.fresh.UnmarshalJSON (.obj ms)).2 = none ∧
        (ServerMessage.fresh.UnmarshalJSON (.obj ms)).1.IsRequest = true ∧
        (ServerMessage.fresh.UnmarshalJSON (.obj ms)).1.IsResponse = false ∧
        ∃ req, (ServerMessage.fresh.UnmarshalJSON (.obj ms)).1.ServerRequest = some req ∧
          req.Method = m ∧ req.Params = paramsOf (member "params" ms) ∧
          req.Id = stringOf (member "id" ms)) ∧
      (ms.all requestTyped = false →
        (ServerMessage.fresh.UnmarshalJSON (.obj ms)).1 = ServerMessage.fresh ∧
        ∃ e, (ServerMessage.fresh.UnmarshalJSON (.obj ms)).2 = some e ∧ IsTypeError e)) ∧
    (ms.all envelopeTyped = true → stringOf (member "method" ms) = none →
      (nonNull (member "result" ms) || nonNull (member "error" ms)) = true →
      (ms.all responseTyped = true →
        (ServerMessage.fresh.UnmarshalJSON (.obj ms)).2 = none ∧
        (ServerMessage.fresh.UnmarshalJSON (.obj ms)).1.IsResponse = true ∧
        (ServerMessage.fresh.UnmarshalJSON (.obj ms)).1.IsRequest = false) ∧
      (ms.all responseTyped = false →
        (ServerMessage.fresh.UnmarshalJSON (.obj ms)).1 = ServerMessage.fresh ∧
        ∃ e, (ServerMessage.fresh.UnmarshalJSON (.obj ms)).2 = some e ∧ IsTypeError e)) ∧
    (ms.all envelopeTyped = true → stringOf (member "method" ms) = none →
      nonNull (member "result" ms) = false → nonNull (member "error" ms) = false →
      (ServerMessage.fresh.UnmarshalJSON (.obj ms)).1 = ServerMessage.fresh ∧
      ∃ e, (ServerMessage.fresh.UnmarshalJSON (.obj ms)).2 = some (.rpc e) ∧
        e.Code = -32600) := by
  have hI := unmarshalIntermediate_isOk ms
  have hQ := unmarshalServerRequest_isOk ms
  have hS := unmarshalServerResponse_isOk ms
  unfold ServerMessage.UnmarshalJSON
  cases h0 : unmarshalIntermediate (.obj ms) with
  | error e0 =>
    have ht : IsTypeError e0 :=
      decodeMembers_error _ intermediateMessage_decodeMember_error ms _ e0 h0
    rw [h0] at hI
    have hI' : ms.all envelopeTyped = false := hI.symm
    refine ⟨fun _ => ⟨rfl, e0, rfl, ht⟩, ?_, ?_, ?_⟩
    · intro h; rw [hI'] at h; cases h
    · intro h; rw [hI'] at h; cases h
    · intro h; rw [hI'] at h; cases h
  | ok im =>
    obtain ⟨hM, hR, hE⟩ := unmarshalIntermediate_fields ms im h0
    rw [h0] at hI
    have hI' : ms.all envelopeTyped = true := hI.symm
    simp only []
    refine ⟨fun h => (by rw [hI'] at h; cases h), ?_, ?_, ?_⟩
    · intro _ m hmem
      have hm : im.Method.isSome = true := by rw [hM, hmem]; rfl
      rw [if_pos hm]
      cases h1 : unmarshalServerRequest (.obj ms) with
      | error e1 =>
        have ht : IsTypeError e1 :=
          decodeMembers_error _ ServerRequest_decodeMember_error ms _ e1 h1
        rw [h1] at hQ
        have hQ' : ms.all requestTyped = false := hQ.symm
        exact ⟨fun h => (by rw [hQ'] at h; cases h), fun _ => ⟨rfl, e1, rfl, ht⟩⟩
      | ok req =>
        obtain ⟨hq1, hq2, hq3⟩ := unmarshalServerRequest_fields ms req h1
        rw [h1] at hQ
        have hQ' : ms.all requestTyped = true := hQ.symm
        exact ⟨fun _ => ⟨rfl, rfl, rfl, req, rfl, hq1 m hmem, hq2, hq3⟩,
          fun h => (by rw [hQ'] at h; cases h)⟩
    · intro _ hno hnn
      have hm : ¬ im.Method.isSome = true := by rw [hM, hno]; simp
      have hr : (im.Result.isSome || im.Error.isSome) = true := by rw [hR, hE]; exact hnn
      rw [if_neg hm, if_pos hr]
      cases h1 : unmarshalServerResponse (.obj ms) with
      | error e1 =>
        have ht : IsTypeError e1 :=
          decodeMembers_error _ ServerResponse_decodeMember_error ms _ e1 h1
        rw [h1] at hS
        have hS' : ms.all responseTyped = false := hS.symm
        exact ⟨fun h => (by rw [hS'] at h; cases h), fun _ => ⟨rfl, e1, rfl, ht⟩⟩
      | ok resp =>
        rw [h1] at hS
        have hS' : ms.all responseTyped = true := hS.symm
        exact ⟨fun _ => ⟨rfl, rfl, rfl⟩, fun h => (by rw [hS'] at h; cases h)⟩
    · intro _ hno h2 h3
      have hm : ¬ im.Method.isSome = true := by rw [hM, hno]; simp
      have hr : ¬ (im.Result.isSome || im.Error.isSome) = true := by
        rw [hR, hE, h2, h3]; simp
      rw [if_neg hm, if_neg hr]
      exact ⟨rfl, _, rfl, rfl⟩

/-- C9, as stated, fails. The first frame has a `method`, and is not decoded as a
request: `params` holds an object and decoding fails. The second has a `result` and
no `method`, and is not decoded as a response: `id` holds a number. -/
theorem UnmarshalJSON_present_yet_rejected :
    member "method" badParamsMembers = some (.str "m") ∧
    (ServerMessage.fresh.UnmarshalJSON (.obj badParamsMembers)).1.IsRequest = false ∧
    (ServerMessage.fresh.UnmarshalJSON (.obj badParamsMembers)).2.isSome = true ∧
    member "method" numericIdMembers = none ∧
    nonNull (member "result" numericIdMembers) = true ∧
    (ServerMessage.fresh.UnmarshalJSON (.obj numericIdMembers)).1.IsResponse = false ∧
    (ServerMessage.fresh.UnmarshalJSON (.obj numericIdMembers)).2.isSome = true :=
  ⟨rfl, rfl, rfl, rfl, rfl, rfl, rfl⟩

/-- C9, at the frame of `TestUnmarshalRequest`: a request for `test` with the three
raw params `1`, `2`, `{"a":"b"}` and the id "1". -/
theorem UnmarshalJSON_frame_witness :
    testFrameMembers.all envelopeTyped = true ∧
    member "method" testFrameMembers = some (.str "test") ∧
    testFrameMembers.all requestTyped = true ∧
    (ServerMessage.fresh.UnmarshalJSON (.obj testFrameMembers)).2 = none ∧
    (ServerMessage.fresh.UnmarshalJSON (.obj testFrameMembers)).1.IsRequest = true ∧
    (ServerMessage.fresh.UnmarshalJSON (.obj testFrameMembers)).1.IsResponse = false ∧
    ∃ req, (ServerMessage.fresh.UnmarshalJSON (.obj testFrameMembers)).1.ServerRequest
        = some req ∧
      req.Method = "test" ∧
      req.Params = [.json (.int 1), .json (.int 2), .json (.obj [("a", .str "b")])] ∧
      req.Id = some "1" :=
  ⟨rfl, rfl, rfl, ((UnmarshalJSON_frame testFrameMembers).2.1 rfl "test" rfl).1 rfl⟩

end json_rpc

namespace bjrpc

open json_rpc

/-! ## Auxiliary facts -/

theorem Transport.written_Write (t : Transport) (data : JVal) :
    (t.Write data).1.written = t.written ++ [data] := by
  unfold Transport.Write
  cases t.results <;> rfl

/-- A response that carries an error without data and no result is always encodable. -/
theorem marshal_error_response (id message : String) (code : Int) :
    marshalClientResponse
      { JSONRPC := "2.0", Result := .nil,
        Error := some { Code := code, Message := message, Data := .nil }, Id := id } =
    some (.obj [("jsonrpc", .str "2.0"), ("result", .null),
      ("error", .obj [("code", .int code), ("message", .str message), ("data", .null)]),
      ("id", .str id)]) := rfl

/-- On a request without an id `writeResponse` faults before it touches anything. -/
theorem writeResponse_notification (b : bjRPC) (req : ServerRequest) (res : GoValue)
    (err : Option GoError) (h : req.Id = none) :
    b.writeResponse req res err = .panicked b := by
  simp [bjRPC.writeResponse, ServerRequest.Response, h]

/-- What `writeResponse` does with an error of the package, on a request with an id. -/
theorem writeResponse_rpc_error (b : bjRPC) (req : ServerRequest) (id message : String)
    (code : Int) (h : req.Id = some id) (hlock : b.transportLock = false) :
    b.writeResponse req .nil
        (some (.rpc { Code := code, Message := message, Data := .nil })) =
      .returned { b with transport := (b.transport.Write
        (.obj [("jsonrpc", .str "2.0"), ("result", .null),
          ("error", .obj [("code", .int code), ("message", .str message), ("data", .null)]),
          ("id", .str id)])).1 } := by
  simp [bjRPC.writeResponse, ServerRequest.Response, h, GoValue.isNil, NewError,
    marshalClientResponse, encodeValue, encodeError, encodeRaw, hlock]

/-- What `writeResponse` does on a request with an id when `transportLock` is free:
the response of `ServerRequest.Response` is written if `json.Marshal` accepts it, and
dropped if not. -/
theorem writeResponse_written (b : bjRPC) (req : ServerRequest) (res : GoValue)
    (err : Option GoError) (resp : ClientResponse) (h : req.Response res err = some resp)
    (hlock : b.transportLock = false) :
    (b.writeResponse req res err).isReturned = true ∧
    (b.writeResponse req res err).state.transport.written =
      b.transport.written ++ (marshalClientResponse resp).toList ∧
    (b.writeResponse req res err).state.events = b.events ∧
    (b.writeResponse req res err).state.requestIds = b.requestIds := by
  unfold bjRPC.writeResponse
  rw [h]
  simp only []
  cases hm : marshalClientResponse resp <;>
    simp [Outcome.isReturned, Outcome.state, Transport.written_Write, hlock]

theorem handleResponse_requestIds (b : bjRPC) (resp : ServerResponse) :
    (b.handleResponse resp).requestIds = b.requestIds := by
  unfold bjRPC.handleResponse
  cases b.requestIds.lookup resp.Id <;> rfl

theorem handleResponse_found (b : bjRPC) (resp : ServerResponse) (done : Nat)
    (h : b.requestIds.lookup resp.Id = some done) :
    b.handleResponse resp = b.record (.callback done resp) := by
  simp [bjRPC.handleResponse, h]

/-- A notification for a method without notification handler, on an engine without
fallback, runs into `reflect.ValueOf(nil).Type()`. -/
theorem handleRequest_unknown_notification (b : bjRPC) (req : ServerRequest)
    (hid : req.Id = none) (hmiss : b.notificationHandlers.lookup req.Method = none)
    (hfb : b.fallback = none) :
    b.handleRequest req = .panicked b := by
  simp [bjRPC.handleRequest, ServerRequest.IsNotification, hid, hmiss, hfb, bjRPC.dispatch]

/-- A notification whose param count differs from the arity of its handler runs into
`*req.Id` in `Response`. -/
theorem handleRequest_notification_arity (b : bjRPC) (req : ServerRequest) (fn : Func)
    (hid : req.Id = none)
    (hreg : b.notificationHandlers.lookup req.Method = some (.func fn))
    (hlen : fn.In.length ≠ req.Params.length) :
    b.handleRequest req = .panicked b := by
  simp [bjRPC.handleRequest, ServerRequest.IsNotification, hid, hreg, bjRPC.dispatch, hlen,
    writeResponse_notification]

/-- `UnmarshalJSON` leaves the message alone when it returns an error. -/
theorem UnmarshalJSON_error (msg : ServerMessage) (data : JVal)
    (h : (msg.UnmarshalJSON data).2 ≠ none) : (msg.UnmarshalJSON data).1 = msg := by
  unfold ServerMessage.UnmarshalJSON at h ⊢
  cases h0 : unmarshalIntermediate data with
  | error e => rfl
  | ok im =>
    simp only [h0] at h ⊢
    by_cases hm : im.Method.isSome = true
    · rw [if_pos hm] at h ⊢
      cases h2 : unmarshalServerRequest data with
      | error e => rfl
      | ok req => simp [h2] at h
    · rw [if_neg hm] at h ⊢
      by_cases hr : (im.Result.isSome || im.Error.isSome) = true
      · rw [if_pos hr] at h ⊢
        cases h2 : unmarshalServerResponse data with
        | error e => rfl
        | ok resp => simp [h2] at h
      · rw [if_neg hr]

/-- The branch of `handleData` that answers a decoding failure is never taken: when
`json.Unmarshal` fails, `handleData` returns and nothing has changed. -/
theorem handleData_error (b : bjRPC) (data : Wire)
    (h : (unmarshalServerMessage ServerMessage.fresh data).2 ≠ none) :
    b.handleData data = .returned b := by
  have h1 : (unmarshalServerMessage ServerMessage.fresh data).1 = ServerMessage.fresh := by
    cases data with
    | malformed => rfl
    | json v => exact UnmarshalJSON_error _ _ h
  unfold bjRPC.handleData
  simp only [h1]
  cases h2 : (unmarshalServerMessage ServerMessage.fresh data).2 <;>
    simp [ServerMessage.fresh]

/-! ## Error taxonomy -/

/-- C7, as stated, fails at the first row of the table: `Retry` is false on a parse
error, code -32700, since -32700 is at most -32600 and is not -32603. -/
theorem Retry_parse_error_false :
    RPCError.Retry (JsonParseError "unexpected end of JSON input") = false := by
  decide

/-- C7, amended: on the seven fixed codes `Retry` is true for -32603 and -32000 and
false for -32700, -32600, -32601, -32602 and -32001, whatever the message and data. -/
theorem Retry_fixed_codes (message : String) (data : RawMessage) :
    RPCError.Retry { Code := -32700, Message := message, Data := data } = false ∧
    RPCError.Retry { Code := -32603, Message := message, Data := data } = true ∧
    RPCError.Retry { Code := -32000, Message := message, Data := data } = true ∧
    RPCError.Retry { Code := -32600, Message := message, Data := data } = false ∧
    RPCError.Retry { Code := -32601, Message := message, Data := data } = false ∧
    RPCError.Retry { Code := -32602, Message := message, Data := data } = false ∧
    RPCError.Retry { Code := -32001, Message := message, Data := data } = false := by
  refine ⟨?_, ?_, ?_, ?_, ?_, ?_, ?_⟩ <;> simp [RPCError.Retry]

/-- C8: `Retry` is a function of the code alone, and it is true at -32603, false at
every other code up to -32600, false at -32001 and true everywhere else. -/
theorem Retry_rule (c : Int) (message : String) (data : RawMessage) :
    (∀ (message' : String) (data' : RawMessage),
      RPCError.Retry { Code := c, Message := message', Data := data' } =
        RPCError.Retry { Code := c, Message := message, Data := data }) ∧
    RPCError.Retry { Code := c, Message := message, Data := data } =
      (if c = -32603 then true
       else if c ≤ -32600 ∧ c ≠ -32603 then false
       else if c = -32001 then false
       else true) := by
  refine ⟨fun _ _ => rfl, ?_⟩
  simp only [RPCError.Retry]
  split_ifs <;> first | rfl | omega

/-! ## Dispatch of requests -/

/-- C3, as stated, fails while a call is outstanding. On a new engine `Call("Test")`
has written its request and is suspended in `<-done`, holding `transportLock`. A
request with the id "7" for a method without handler is then read: `handleRequest`
does not return, it is suspended in `Lock()`, and the transport holds the frame of
the call and no response. -/
theorem handleRequest_method_not_found_blocked :
    ((New emptyTransport).Call "Test" []).waitsOn = some 0 ∧
    ((New emptyTransport).Call "Test" []).state.transportLock = true ∧
    ((New emptyTransport).Call "Test" []).state.fallback.isNone = true ∧
    (((New emptyTransport).Call "Test" []).state.handleRequest
      (bareRequest "missing" (some "7"))).isReturned = false ∧
    (((New emptyTransport).Call "Test" []).state.handleRequest
      (bareRequest "missing" (some "7"))).isBlocked = true ∧
    (((New emptyTransport).Call "Test" []).state.handleRequest
      (bareRequest "missing" (some "7"))).state.transport.written
      = [.obj [("jsonrpc", .str "2.0"), ("method", .str "Test"), ("params", .null),
          ("id", .str "1")]] :=
  ⟨rfl, rfl, rfl, rfl, rfl, rfl⟩

/-- C3, amended: a request with an id, for a method that has no request handler, on an
engine without fallback, while `transportLock` is free, that is while no call of the
engine is waiting for its response: `handleRequest` returns, it has passed exactly one
frame to the transport, the frame encodes a response with the id of the request, no
result and an error of code -32601, and no handler, fallback or completion has been
called. -/
theorem handleRequest_method_not_found (b : bjRPC) (req : ServerRequest) (id : String)
    (hid : req.Id = some id) (hmiss : b.requestHandlers.lookup req.Method = none)
    (hfb : b.fallback = none) (hlock : b.transportLock = false) :
    ∃ (resp : ClientResponse) (frame : JVal),
      marshalClientResponse resp = some frame ∧
      resp.Id = id ∧ resp.Result = GoValue.nil ∧
      resp.Error.map RPCError.Code = some (-32601) ∧
      (b.handleRequest req).isReturned = true ∧
      (b.handleRequest req).state.transport.written = b.transport.written ++ [frame] ∧
      (b.handleRequest req).state.events = b.events := by
  have hn : req.IsNotification = false := by simp [ServerRequest.IsNotification, hid]
  refine ⟨{ JSONRPC := "2.0", Result := .nil,
            Error := some (MethodNotFoundError ("No such method: " ++ req.Method)), Id := id },
    _, marshal_error_response id _ (-32601), rfl, rfl, rfl, ?_⟩
  simp only [bjRPC.handleRequest, hn, hmiss, hfb, MethodNotFoundError,
    writeResponse_rpc_error b req id _ _ hid hlock, Outcome.isReturned, Outcome.state,
    Transport.written_Write]
  simp [Transport.written_Write]

/-- C4, as stated, fails while a call is outstanding. The server of the tests has made
the call `Call("Other")`, which is suspended in `<-done` and holds `transportLock`. A
request without params for its one-parameter handler is then read: `handleRequest`
does not return, it is suspended in `Lock()`, the handler has not been called, and
the transport holds the frame of the call and no response. -/
theorem handleRequest_arity_mismatch_blocked :
    callingServer.transportLock = true ∧
    callingServer.requestHandlers.lookup (bareRequest "TestMethod" (some "1")).Method
      = some (.func testMethod) ∧
    testMethod.In.length ≠ (bareRequest "TestMethod" (some "1")).Params.length ∧
    (callingServer.handleRequest (bareRequest "TestMethod" (some "1"))).isReturned = false ∧
    (callingServer.handleRequest (bareRequest "TestMethod" (some "1"))).isBlocked = true ∧
    (callingServer.handleRequest (bareRequest "TestMethod" (some "1"))).state.events = [] ∧
    (callingServer.handleRequest (bareRequest "TestMethod" (some "1"))).state.transport.written
      = [otherCallFrame] :=
  ⟨rfl, rfl, by decide, rfl, rfl, rfl, rfl⟩

/-- C4, amended: a request with an id, for a method whose request handler is a
function of a number of parameters other than the number of params in the request,
while `transportLock` is free, that is while no call of the engine is waiting for its
response: `handleRequest` returns, it has passed exactly one frame to the transport,
the frame encodes a response with the id of the request, no result and an error of
code -32602, and the handler has not been called. -/
theorem handleRequest_arity_mismatch (b : bjRPC) (req : ServerRequest) (id : String)
    (fn : Func) (hid : req.Id = some id)
    (hreg : b.requestHandlers.lookup req.Method = some (.func fn))
    (hlen : fn.In.length ≠ req.Params.length) (hlock : b.transportLock = false) :
    ∃ (resp : ClientResponse) (frame : JVal),
      marshalClientResponse resp = some frame ∧
      resp.Id = id ∧ resp.Result = GoValue.nil ∧
      resp.Error.map RPCError.Code = some (-32602) ∧
      (b.handleRequest req).isReturned = true ∧
      (b.handleRequest req).state.transport.written = b.transport.written ++ [frame] ∧
      (b.handleRequest req).state.events = b.events := by
  have hn : req.IsNotification = false := by simp [ServerRequest.IsNotification, hid]
  refine ⟨{ JSONRPC := "2.0", Result := .nil,
            Error := some (InvalidParamsError
              ("Expected " ++ toString fn.In.length ++ " arguments")), Id := id },
    _, marshal_error_response id _ (-32602), rfl, rfl, rfl, ?_⟩
  simp only [bjRPC.handleRequest, hn, hreg, bjRPC.dispatch, InvalidParamsError,
    writeResponse_rpc_error b req id _ _ hid hlock, Outcome.isReturned, Outcome.state,
    Transport.written_Write]
  simp [hlen, Transport.written_Write]

/-- C5: on a notification `handleRequest` leaves the transport as it found it, in
every engine state and however it ends: method registered or not, fallback or not,
handler called or not, whatever the handler returns. -/
theorem handleRequest_notification_silent (b : bjRPC) (req : ServerRequest)
    (hid : req.Id = none) :
    (b.handleRequest req).state.transport = b.transport := by
  have hn : req.IsNotification = true := by simp [ServerRequest.IsNotification, hid]
  have hd : ∀ h : handlerValue, (b.dispatch req h).state.transport = b.transport := by
    intro h
    cases h with
    | nil => rfl
    | notFunc => rfl
    | func fn =>
      simp only [bjRPC.dispatch]
      split
      · rw [writeResponse_notification _ _ _ _ hid]; rfl
      · split
        · rw [writeResponse_notification _ _ _ _ hid]; rfl
        · split
          · rfl
          · simp [bjRPC.respond, hn, Outcome.state, bjRPC.record]
  simp only [bjRPC.handleRequest, hn, if_true]
  split
  · split
    · rfl
    · exact hd _
  · exact hd _

/-- C3, at a request for the method `missing` on a new engine, and on an engine whose
one call has been answered and has returned: the response follows the request of
that call on the transport. -/
theorem handleRequest_method_not_found_witness :
    ((bareRequest "missing" (some "7")).Id = some "7" ∧
      (New emptyTransport).requestHandlers.lookup (bareRequest "missing" (some "7")).Method
        = none ∧
      (New emptyTransport).transportLock = false ∧
      ∃ (resp : ClientResponse) (frame : JVal),
        marshalClientResponse resp = some frame ∧
        resp.Id = "7" ∧ resp.Result = GoValue.nil ∧
        resp.Error.map RPCError.Code = some (-32601) ∧
        ((New emptyTransport).handleRequest (bareRequest "missing" (some "7"))).isReturned
          = true ∧
        ((New emptyTransport).handleRequest
          (bareRequest "missing" (some "7"))).state.transport.written
          = (New emptyTransport).transport.written ++ [frame] ∧
        ((New emptyTransport).handleRequest (bareRequest "missing" (some "7"))).state.events
          = (New emptyTransport).events) ∧
    (answeredEngine.transportLock = false ∧
      answeredEngine.events = [.callback 0 (okResponse "1")] ∧
      ∃ (resp : ClientResponse) (frame : JVal),
        marshalClientResponse resp = some frame ∧
        resp.Id = "7" ∧ resp.Result = GoValue.nil ∧
        resp.Error.map RPCError.Code = some (-32601) ∧
        (answeredEngine.handleRequest (bareRequest "missing" (some "7"))).isReturned
          = true ∧
        (answeredEngine.handleRequest (bareRequest "missing" (some "7"))).state.transport.written
          = answeredEngine.transport.written ++ [frame] ∧
        (answeredEngine.handleRequest (bareRequest "missing" (some "7"))).state.events
          = answeredEngine.events) :=
  ⟨⟨rfl, rfl, rfl, handleRequest_method_not_found (New emptyTransport)
      (bareRequest "missing" (some "7")) "7" rfl rfl rfl rfl⟩,
    ⟨rfl, rfl, handleRequest_method_not_found answeredEngine
      (bareRequest "missing" (some "7")) "7" rfl rfl rfl rfl⟩⟩

/-- C4, at a request without params for the one-parameter handler of the tests. -/
theorem handleRequest_arity_mismatch_witness :
    testServer.requestHandlers.lookup (bareRequest "TestMethod" (some "1")).Method
      = some (.func testMethod) ∧
    testMethod.In.length ≠ (bareRequest "TestMethod" (some "1")).Params.length ∧
    testServer.transportLock = false ∧
    ∃ (resp : ClientResponse) (frame : JVal),
      marshalClientResponse resp = some frame ∧
      resp.Id = "1" ∧ resp.Result = GoValue.nil ∧
      resp.Error.map RPCError.Code = some (-32602) ∧
      (testServer.handleRequest (bareRequest "TestMethod" (some "1"))).isReturned = true ∧
      (testServer.handleRequest (bareRequest "TestMethod" (some "1"))).state.transport.written
        = testServer.transport.written ++ [frame] ∧
      (testServer.handleRequest (bareRequest "TestMethod" (some "1"))).state.events
        = testServer.events :=
  ⟨rfl, by decide, rfl, handleRequest_arity_mismatch testServer
    (bareRequest "TestMethod" (some "1")) "1" testMethod rfl rfl (by decide) rfl⟩

/-- C5, at the notification `TestMethod("str")` on an engine that handles it: the
handler is called and the transport is as before. -/
theorem handleRequest_notification_silent_witness :
    testNotification.Id = none ∧
    (notifiedServer.handleRequest testNotification).state.events
      = [.handler true "TestMethod" [.json (.str "str")]] ∧
    (notifiedServer.handleRequest testNotification).state.transport
      = notifiedServer.transport :=
  ⟨rfl, rfl, handleRequest_notification_silent notifiedServer testNotification rfl⟩

/-- C2, amended: a request with an id, for a method whose request handler is a
function with as many parameters as the request has params, all of which decode,
read while `transportLock` is free, that is while no call of the engine is waiting
for its response. The function is one `reflect` can call with the decoded arguments,
so not a variadic one whose slice is not assignable to its element type, and it
returns one value, the result, or two, the result and a second value that is nil or
an error other than a nil `*RPCError`. `handleRequest` returns after calling the
handler exactly once, with the decoded arguments. It builds one response with the id
of the request: the error, converted with `NewError`, and no result if the handler
produced a failure; otherwise the result and no error if the result is not nil, and
an error of code -32600 and no result if it is nil. It passes that response to the
transport, in one frame, when `json.Marshal` accepts it, and writes nothing when
not. -/
theorem handleRequest_registered (b : bjRPC) (req : ServerRequest) (id : String) (fn : Func)
    (args : List GoValue) (result : Returned) (second : Option Returned)
    (hid : req.Id = some id)
    (hreg : b.requestHandlers.lookup req.Method = some (.func fn))
    (hlen : fn.In.length = req.Params.length)
    (hdec : decodeArgs fn.In req.Params = .ok args)
    (hlock : b.transportLock = false)
    (hvar : fn.IsVariadic = true → fn.sliceAsElem = true)
    (hcall : fn.Call args = result :: second.toList)
    (herr : ∀ errv, second = some errv →
      (errv.IsNil = some true ∨ (errv.IsNil = some false ∧ errv.asError.isSome = true)) ∧
      errv.asError ≠ some .rpcNil) :
    (b.handleRequest req).isReturned = true ∧
    (b.handleRequest req).state.events = b.events ++ [.handler false req.Method args] ∧
    (∀ e, second.bind Returned.asError = some e → (NewError e).isSome = true) ∧
    (b.handleRequest req).state.transport.written = b.transport.written ++
      (marshalClientResponse
        (match second.bind Returned.asError with
         | some e => { JSONRPC := "2.0", Result := .nil, Error := NewError e, Id := id }
         | none =>
           if result.Interface.isNil then
             { JSONRPC := "2.0", Result := .nil,
               Error := some (InvalidRequestObject
                 "Server responded without result or error, oh my"), Id := id }
           else { JSONRPC := "2.0", Result := result.Interface, Error := none, Id := id })
        ).toList := by
  have hn : req.IsNotification = false := by simp [ServerRequest.IsNotification, hid]
  have hrc : fn.reflectCall args = some (result :: second.toList) := by
    unfold Func.reflectCall
    rw [hcall]
    cases hv : fn.IsVariadic with
    | false => rfl
    | true => simp [hvar hv]
  have hlock' : (b.record (.handler false req.Method args)).transportLock = false := hlock
  have hnone : (b.handleRequest req).isReturned = true ∧
      (b.handleRequest req).state.events = b.events ++ [.handler false req.Method args] ∧
      (b.handleRequest req).state.transport.written = b.transport.written ++
        (marshalClientResponse
          (match second.bind Returned.asError with
           | some e => { JSONRPC := "2.0", Result := .nil, Error := NewError e, Id := id }
           | none =>
             if result.Interface.isNil then
               { JSONRPC := "2.0", Result := .nil,
                 Error := some (InvalidRequestObject
                   "Server responded without result or error, oh my"), Id := id }
             else { JSONRPC := "2.0", Result := result.Interface, Error := none, Id := id })
          ).toList := by
    simp only [bjRPC.handleRequest, hn, hreg, bjRPC.dispatch, hlen, hdec, hrc]
    simp only [bne_self_eq_false, Bool.false_eq_true, if_false]
    have hplain : ((b.record (.handler false req.Method args)).writeResponse req
          result.Interface none).isReturned = true ∧
        ((b.record (.handler false req.Method args)).writeResponse req
          result.Interface none).state.events
          = b.events ++ [.handler false req.Method args] ∧
        ((b.record (.handler false req.Method args)).writeResponse req
          result.Interface none).state.transport.written = b.transport.written ++
          (marshalClientResponse
            (if result.Interface.isNil then
               { JSONRPC := "2.0", Result := .nil,
                 Error := some (InvalidRequestObject
                   "Server responded without result or error, oh my"), Id := id }
             else { JSONRPC := "2.0", Result := result.Interface, Error := none, Id := id })
            ).toList := by
      cases hr : result.Interface.isNil with
      | true =>
        have := writeResponse_written (b.record (.handler false req.Method args)) req
          result.Interface none
          { JSONRPC := "2.0", Result := .nil,
            Error := some (InvalidRequestObject
              "Server responded without result or error, oh my"), Id := id }
          (by simp [ServerRequest.Response, hid, hr]) hlock'
        simp only [bjRPC.record] at this ⊢
        exact ⟨this.1, this.2.2.1, this.2.1⟩
      | false =>
        have := writeResponse_written (b.record (.handler false req.Method args)) req
          result.Interface none
          { JSONRPC := "2.0", Result := result.Interface, Error := none, Id := id }
          (by simp [ServerRequest.Response, hid, hr]) hlock'
        simp only [bjRPC.record] at this ⊢
        exact ⟨this.1, this.2.2.1, this.2.1⟩
    cases second with
    | none =>
      simp only [Option.toList, bjRPC.respond, hn, Option.bind]
      exact hplain
    | some errv =>
      obtain ⟨hnil, _⟩ := herr errv rfl
      simp only [Option.toList, bjRPC.respond, hn, Option.bind]
      cases he : errv.asError with
      | some e =>
        have hcond : ∀ isNil, (!isNil && (some e : Option GoError).isNone) = false := by
          intro isNil; simp
        have := writeResponse_written (b.record (.handler false req.Method args)) req .nil
          (some e) { JSONRPC := "2.0", Result := .nil, Error := NewError e, Id := id }
          (by simp [ServerRequest.Response, hid, GoValue.isNil]) hlock'
        simp only [bjRPC.record] at this
        rcases hnil with h | ⟨h, _⟩ <;>
          · simp only [h, bjRPC.record, Bool.not_true, Bool.not_false, Bool.false_and,
              Bool.true_and, Option.isNone_some, Bool.false_eq_true, if_false]
            exact ⟨this.1, this.2.2.1, this.2.1⟩
      | none =>
        rcases hnil with h | ⟨_, h⟩
        · simp only [h, Bool.not_true, Bool.false_and, Bool.false_eq_true, if_false]
          exact hplain
        · rw [he] at h
          simp at h
  refine ⟨hnone.1, hnone.2.1, ?_, hnone.2.2⟩
  intro e he
  cases second with
  | none => simp at he
  | some errv =>
    simp only [Option.bind] at he
    have := (herr errv rfl).2
    rw [he] at this
    cases e with
    | rpcNil => exact absurd rfl this
    | rpc e => rfl
    | other msg => rfl

/-- C2, as stated, fails. Each of these handlers is registered and gets a request
with an id and as many params as it has parameters, all decoding, and none produces
a failure. `func() (interface{}, error) { return nil, nil }` is answered with an
error, of code -32600. `func() (float64, error) { return math.NaN(), nil }` is
called and gets no response at all. A variadic function given one param, a JSON
array, is not called: `reflect` faults and nothing is written. A function without
return value and one whose second value is not an error are called and answered
with an error of code -32001. And while a call of the engine is waiting for its
response, the handler of the tests is called and `handleRequest` is then suspended
in `Lock()`: no response is written. -/
theorem handleRequest_registered_not_answered_with_result :
    (oddServer.handleRequest (bareRequest "Nil" (some "1"))).state.events
      = [.handler false "Nil" []] ∧
    (oddServer.handleRequest (bareRequest "Nil" (some "1"))).state.transport.written
      = [errorFrame "1" (-32600) "Server responded without result or error, oh my"] ∧
    (oddServer.handleRequest (bareRequest "NaN" (some "2"))).state.events
      = [.handler false "NaN" []] ∧
    (oddServer.handleRequest (bareRequest "NaN" (some "2"))).state.transport.written = [] ∧
    decodeArgs variadicMethod.In variadicRequest.Params
      = .ok [.json (.arr [.int 1, .int 2])] ∧
    (oddServer.handleRequest variadicRequest).isReturned = false ∧
    (oddServer.handleRequest variadicRequest).state.events = [] ∧
    (oddServer.handleRequest variadicRequest).state.transport.written = [] ∧
    (oddServer.handleRequest (bareRequest "Void" (some "4"))).state.events
      = [.handler false "Void" []] ∧
    (oddServer.handleRequest (bareRequest "Void" (some "4"))).state.transport.written
      = [errorFrame "4" (-32001)
          "Incorrect return type for server function; must of have one or two returns"] ∧
    (oddServer.handleRequest (bareRequest "Pair" (some "5"))).state.events
      = [.handler false "Pair" []] ∧
    (oddServer.handleRequest (bareRequest "Pair" (some "5"))).state.transport.written
      = [errorFrame "5" (-32001)
          "Incorrect return type for server function; second argument *must* be an error if present"] ∧
    callingServer.transportLock = true ∧
    (callingServer.handleRequest testRequest).isReturned = false ∧
    (callingServer.handleRequest testRequest).isBlocked = true ∧
    (callingServer.handleRequest testRequest).state.events
      = [.handler false "TestMethod" [.json (.str "str")]] ∧
    (callingServer.handleRequest testRequest).state.transport.written = [otherCallFrame] :=
  ⟨rfl, rfl, rfl, rfl, rfl, rfl, rfl, rfl, rfl, rfl, rfl, rfl, rfl, rfl, rfl, rfl, rfl⟩

/-- C2, at the request of `TestRequestHandler`: the handler is called once with
`"str"` and the one frame written is
`{"jsonrpc":"2.0","result":"Called with str","error":null,"id":"1"}`. And at a request
for a handler that returns one value, `func() string { return "pong" }`. -/
theorem handleRequest_registered_witness :
    ((testServer.handleRequest testRequest).isReturned = true ∧
      (testServer.handleRequest testRequest).state.events
        = testServer.events ++ [.handler false "TestMethod" [.json (.str "str")]] ∧
      (testServer.handleRequest testRequest).state.transport.written
        = testServer.transport.written ++
          [.obj [("jsonrpc", .str "2.0"), ("result", .str "Called with str"),
            ("error", .null), ("id", .str "1")]]) ∧
    ((pingServer.handleRequest (bareRequest "Ping" (some "8"))).isReturned = true ∧
      (pingServer.handleRequest (bareRequest "Ping" (some "8"))).state.events
        = pingServer.events ++ [.handler false "Ping" []] ∧
      (pingServer.handleRequest (bareRequest "Ping" (some "8"))).state.transport.written
        = pingServer.transport.written ++
          [.obj [("jsonrpc", .str "2.0"), ("result", .str "pong"), ("error", .null),
            ("id", .str "8")]]) :=
  ⟨(fun h => ⟨h.1, h.2.1, h.2.2.2⟩)
      (handleRequest_registered testServer testRequest "1" testMethod [.json (.str "str")]
        { Interface := .json (.str "Called with str"), IsNil := some false, asError := none }
        (some nilError) rfl rfl rfl rfl rfl (fun h => nomatch h) rfl
        (fun _ h => Option.some.inj h ▸ ⟨Or.inl rfl, fun h2 => nomatch h2⟩)),
    (fun h => ⟨h.1, h.2.1, h.2.2.2⟩)
      (handleRequest_registered pingServer (bareRequest "Ping" (some "8")) "8" pingMethod []
        { Interface := .json (.str "pong"), IsNil := none, asError := none }
        none rfl rfl rfl rfl rfl (fun h => nomatch h) rfl (fun _ h => nomatch h))⟩

/-! ## Correlation of responses -/

/-- C1 fails on the code. A call on a new engine is suspended with its completion
stored under the id "1". Two responses bearing "1" then arrive: `handleResponse`
calls the completion for each of them, and the entry is still in `requestIds`
afterwards. -/
theorem handleResponse_calls_completion_twice :
    ((New emptyTransport).Call "Test" []).waitsOn = some 0 ∧
    ((New emptyTransport).Call "Test" []).state.requestIds = [("1", 0)] ∧
    ((((New emptyTransport).Call "Test" []).state.handleResponse
        (okResponse "1")).handleResponse (okResponse "1")).events
      = [.callback 0 (okResponse "1"), .callback 0 (okResponse "1")] ∧
    ((((New emptyTransport).Call "Test" []).state.handleResponse
        (okResponse "1")).handleResponse (okResponse "1")).requestIds = [("1", 0)] :=
  ⟨rfl, rfl, rfl, rfl⟩

/-- C6 fails on the code. A notification for a method without notification handler,
on an engine without fallback, ends `handleRequest` with a run-time fault, and so
does a notification without params for a handler of one parameter. -/
theorem handleRequest_notification_faults :
    ((New emptyTransport).handleRequest (bareRequest "nope" none)).isReturned = false ∧
    (notifiedServer.handleRequest (bareRequest "TestMethod" none)).isReturned = false := by
  constructor
  · rw [handleRequest_unknown_notification (New emptyTransport) (bareRequest "nope" none)
      rfl rfl rfl]
    rfl
  · rw [handleRequest_notification_arity notifiedServer (bareRequest "TestMethod" none)
      testMethod rfl rfl (by decide)]
    rfl

/-! ## Frames that fail to decode -/

/-- C10 fails on the code. The frame
`{"jsonrpc":"2.0","method":"m","params":{},"id":"1"}` carries a method and a string
id and fails to decode; `handleData` returns without writing anything. -/
theorem handleData_undecodable_request_unanswered :
    (unmarshalServerMessage ServerMessage.fresh (.json badParamsFrame)).2.isSome = true ∧
    ((New emptyTransport).handleData (.json badParamsFrame)).isReturned = true ∧
    ((New emptyTransport).handleData (.json badParamsFrame)).state.transport.written = [] := by
  have h := handleData_error (New emptyTransport) (.json badParamsFrame)
    (Option.isSome_iff_ne_none.mp rfl)
  rw [h]
  exact ⟨rfl, rfl, rfl⟩

end bjrpc

namespace json_rpc

/-! ## Decimal strings -/

theorem digitVal_digitChar (d : Nat) (h : d < 10) : digitVal (Nat.digitChar d) = d := by
  interval_cases d <;> rfl

theorem digitChar_ne_minus (d : Nat) (h : d < 10) : Nat.digitChar d ≠ '-' := by
  interval_cases d <;> decide

theorem foldl_toDigitsCore (fuel : Nat) :
    ∀ (n : Nat) (ds : List Char), n < fuel →
      (Nat.toDigitsCore 10 fuel n ds).foldl (fun acc c => 10 * acc + digitVal c) 0
        = ds.foldl (fun acc c => 10 * acc + digitVal c) n := by
  induction fuel with
  | zero => intro n ds h; omega
  | succ fuel ih =>
    intro n ds h
    simp only [Nat.toDigitsCore]
    have hd : digitVal (Nat.digitChar (n % 10)) = n % 10 :=
      digitVal_digitChar _ (Nat.mod_lt _ (by decide))
    split_ifs with h0
    · simp only [List.foldl_cons, hd]
      congr 1
      omega
    · have hlt : n / 10 < fuel := by omega
      rw [ih (n / 10) _ hlt]
      simp only [List.foldl_cons, hd]
      congr 1
      omega

theorem decimalValue_toDigits (n : Nat) : decimalValue (Nat.toDigits 10 n) = n := by
  unfold decimalValue Nat.toDigits
  rw [foldl_toDigitsCore (n + 1) n [] (by omega)]
  rfl

theorem head_toDigitsCore (fuel : Nat) :
    ∀ (n : Nat) (ds : List Char), fuel ≠ 0 →
      ∃ d rest, d < 10 ∧ Nat.toDigitsCore 10 fuel n ds = Nat.digitChar d :: rest := by
  induction fuel with
  | zero => intro n ds h; exact absurd rfl h
  | succ fuel ih =>
    intro n ds _
    simp only [Nat.toDigitsCore]
    split_ifs with h0
    · exact ⟨n % 10, ds, Nat.mod_lt _ (by decide), rfl⟩
    · cases fuel with
      | zero => exact ⟨n % 10, ds, Nat.mod_lt _ (by decide), rfl⟩
      | succ fuel => exact ih (n / 10) _ (by omega)

/-- The decimal string of an integer reads back as that integer. -/
theorem decimalInt_toString (i : Int) : decimalInt (toString i) = i := by
  cases i with
  | ofNat m =>
    obtain ⟨d, rest, hd, hrest⟩ := head_toDigitsCore (m + 1) m [] (by omega)
    have hdata : (toString (Int.ofNat m)).data = Nat.toDigits 10 m := rfl
    have hv := decimalValue_toDigits m
    unfold decimalInt
    rw [hdata]
    unfold Nat.toDigits at hv ⊢
    rw [hrest] at hv ⊢
    simp only [digitChar_ne_minus d hd, if_false, hv]
    rfl
  | negSucc m =>
    have hdata : (toString (Int.negSucc m)).data = '-' :: Nat.toDigits 10 (m + 1) := rfl
    unfold decimalInt
    rw [hdata]
    simp only [if_true, decimalValue_toDigits]
    rfl

/-- Two integers with the same decimal string are equal. -/
theorem toString_int_inj {a b : Int} (h : toString a = toString b) : a = b := by
  have := congrArg decimalInt h
  rwa [decimalInt_toString, decimalInt_toString] at this

end json_rpc

namespace bjrpc

open json_rpc

/-! ## Responses without a pending call, fallback -/

/-- C11: a response whose id has no entry in `requestIds`: `handleResponse` returns
and the engine is exactly as before, so the correlation table, both handler tables,
the record of calls made (no completion was invoked) and the transport (nothing was
written) are unchanged. -/
theorem handleResponse_unmatched (b : bjRPC) (resp : ServerResponse)
    (h : b.requestIds.lookup resp.Id = none) :
    b.handleResponse resp = b ∧
    (b.handleResponse resp).requestIds = b.requestIds ∧
    (b.handleResponse resp).requestHandlers = b.requestHandlers ∧
    (b.handleResponse resp).notificationHandlers = b.notificationHandlers ∧
    (b.handleResponse resp).events = b.events ∧
    (b.handleResponse resp).transport = b.transport := by
  have hb : b.handleResponse resp = b := by simp [bjRPC.handleResponse, h]
  rw [hb]
  exact ⟨rfl, rfl, rfl, rfl, rfl, rfl⟩

/-- C11, at a response for the id "9" on an engine with one call outstanding, of id
"1". -/
theorem handleResponse_unmatched_witness :
    ((New emptyTransport).Call "Test" []).state.requestIds.lookup (okResponse "9").Id = none ∧
    ((New emptyTransport).Call "Test" []).state.handleResponse (okResponse "9")
      = ((New emptyTransport).Call "Test" []).state :=
  ⟨rfl, (handleResponse_unmatched ((New emptyTransport).Call "Test" []).state
    (okResponse "9") rfl).1⟩

/-- C18: a request or a notification whose method is not in the table for its kind,
on an engine with a fallback: `handleRequest` returns, and all it has done is call
the fallback once with the request. No handler was called, the transport is as
before and so are the tables. -/
theorem handleRequest_fallback (b : bjRPC) (req : ServerRequest) (f : unknownHandler)
    (hmiss : (if req.IsNotification then b.notificationHandlers.lookup req.Method
      else b.requestHandlers.lookup req.Method) = none)
    (hfb : b.fallback = some f) :
    b.handleRequest req = .returned (b.record (.fallback req)) ∧
    (b.handleRequest req).isReturned = true ∧
    (b.handleRequest req).state.events = b.events ++ [.fallback req] ∧
    (b.handleRequest req).state.transport = b.transport ∧
    (b.handleRequest req).state.requestIds = b.requestIds := by
  have h : b.handleRequest req = .returned (b.record (.fallback req)) := by
    unfold bjRPC.handleRequest
    cases hn : req.IsNotification with
    | true =>
      rw [hn] at hmiss
      simp only [if_true] at hmiss ⊢
      rw [hmiss, hfb]
    | false =>
      rw [hn] at hmiss
      simp only [Bool.false_eq_true, if_false] at hmiss ⊢
      rw [hmiss, hfb]
  rw [h]
  exact ⟨rfl, rfl, rfl, rfl, rfl⟩

/-- C18, at a request and at a notification for `nope` on an engine whose fallback
was set with `SetUnknownHandler`. -/
theorem handleRequest_fallback_witness :
    (((New emptyTransport).SetUnknownHandler (some silentFallback)).handleRequest
        (bareRequest "nope" (some "3"))).state.events
      = [.fallback (bareRequest "nope" (some "3"))] ∧
    (((New emptyTransport).SetUnknownHandler (some silentFallback)).handleRequest
        (bareRequest "nope" (some "3"))).state.transport = emptyTransport ∧
    (((New emptyTransport).SetUnknownHandler (some silentFallback)).handleRequest
        (bareRequest "nope" none)).state.events
      = [.fallback (bareRequest "nope" none)] :=
  ⟨(handleRequest_fallback ((New emptyTransport).SetUnknownHandler (some silentFallback))
      (bareRequest "nope" (some "3")) silentFallback rfl rfl).2.2.1,
    (handleRequest_fallback ((New emptyTransport).SetUnknownHandler (some silentFallback))
      (bareRequest "nope" (some "3")) silentFallback rfl rfl).2.2.2.1,
    (handleRequest_fallback ((New emptyTransport).SetUnknownHandler (some silentFallback))
      (bareRequest "nope" none) silentFallback rfl rfl).2.2.1⟩

/-! ## Building errors, responses and requests -/

/-- C14: `NewError` hands back an error that is already a `*RPCError` as it is, with
the same code, message and data; it turns any other error into an `RPCError` of code
-32000 with that error's message and no data; and applying it to its own result
changes nothing. -/
theorem NewError_cases :
    (∀ e : RPCError, NewError (.rpc e) = some e) ∧
    (∀ p : Option RPCError, NewError (asError p) = p) ∧
    (∀ msg : String, (GoError.other msg).Error = some msg ∧
      NewError (.other msg) = some { Code := -32000, Message := msg, Data := .nil }) ∧
    (∀ e : GoError, NewError (asError (NewError e)) = NewError e) := by
  refine ⟨fun _ => rfl, fun p => ?_, fun _ => ⟨rfl, rfl⟩, fun e => ?_⟩
  · cases p <;> rfl
  · cases e <;> rfl

/-- What `Response` builds from an error that is not a nil `*RPCError`: exactly one of
result and error. -/
theorem Response_exactly_one (req : ServerRequest) (id : String) (result : GoValue)
    (err : Option GoError) (hid : req.Id = some id) (herr : err ≠ some .rpcNil) :
    ∃ resp, req.Response result err = some resp ∧ resp.JSONRPC = "2.0" ∧ resp.Id = id ∧
      ((resp.Result = result ∧ result.isNil = false ∧ resp.Error = none) ∨
       (resp.Result = .nil ∧ result.isNil = true ∧ resp.Error.isSome = true)) := by
  unfold ServerRequest.Response
  rw [hid]
  cases hr : result.isNil with
  | false => exact ⟨_, rfl, rfl, rfl, Or.inl ⟨rfl, rfl, rfl⟩⟩
  | true =>
    cases err with
    | none => exact ⟨_, rfl, rfl, rfl, Or.inr ⟨rfl, rfl, rfl⟩⟩
    | some e =>
      cases e with
      | rpcNil => exact absurd rfl herr
      | rpc e => exact ⟨_, rfl, rfl, rfl, Or.inr ⟨rfl, rfl, rfl⟩⟩
      | other msg => exact ⟨_, rfl, rfl, rfl, Or.inr ⟨rfl, rfl, rfl⟩⟩

/-- C15 fails on the code. A request with the id "10" is answered with no result and
with an error that is a nil `*RPCError` inside a non-nil `error`: `Response` takes the
branch for a failure, `NewError` hands back the nil pointer, and the response has
neither a result nor an error. -/
theorem Response_nil_pointer_error_neither :
    (bareRequest "asdf" (some "10")).Response .nil (some .rpcNil)
      = some { JSONRPC := "2.0", Result := .nil, Error := none, Id := "10" } ∧
    marshalClientResponse { JSONRPC := "2.0", Result := .nil, Error := none, Id := "10" }
      = some (.obj [("jsonrpc", .str "2.0"), ("result", .null), ("error", .null),
          ("id", .str "10")]) :=
  ⟨rfl, rfl⟩

/-! ## Calls -/

theorem mapDelete_mapSet {α : Type} (m : List (String × α)) (k : String) (v : α) :
    mapDelete (mapSet m k v) k = mapDelete m k := by
  simp [mapDelete, mapSet, List.filter_cons]

theorem mapDelete_of_lookup_none {α : Type} (m : List (String × α)) (k : String)
    (h : m.lookup k = none) : mapDelete m k = m := by
  rw [List.lookup_eq_none_iff] at h
  unfold mapDelete
  rw [List.filter_eq_self]
  intro e he
  have := h e he
  simp only [bne_iff_ne, ne_eq] at this ⊢
  exact fun hk => this hk.symm

theorem lookup_mapSet_self {α : Type} (m : List (String × α)) (k : String) (v : α) :
    (mapSet m k v).lookup k = some v := by
  simp [mapSet]

theorem addInt64_one (c : Int) (hmin : -9223372036854775808 ≤ c)
    (hmax : c < 9223372036854775807) : addInt64 c 1 = c + 1 := by
  unfold addInt64
  omega

theorem NewError_asError_NewError (e : GoError) : NewError (asError (NewError e)) = NewError e := by
  cases e <;> rfl

theorem Call_state_id (b : bjRPC) (method : String) (args : List GoValue) :
    (b.Call method args).state._id = addInt64 b._id 1 := by
  unfold bjRPC.Call
  simp only []
  split
  · split <;> rfl
  · split
    · split <;> rfl
    · rfl

/-- What `Call` does when the request is encoded and the write fails. -/
theorem Call_write_fails (b : bjRPC) (method : String) (args : List GoValue) (frame : JVal)
    (err : GoError) (rest : List (Option GoError))
    (hm : marshalClientRequest (b.callRequest method args) = .ok frame)
    (hw : b.transport.results = some err :: rest) :
    (b.Call method args).result = some { response :=
        { JSONRPC := "2.0", Result := none, Error := NewError err,
          Id := toString (addInt64 b._id 1) } } ∧
    (b.Call method args).state.events = b.events ∧
    (b.Call method args).state.requestIds
      = mapDelete b.requestIds (toString (addInt64 b._id 1)) ∧
    (b.Call method args).state.transport.written = b.transport.written ++ [frame] := by
  unfold bjRPC.callRequest at hm
  unfold bjRPC.Call
  simp only []
  rw [hm]
  simp only [Transport.Write, hw, NewRequest, ClientRequest.Response, Option.map,
    NewError_asError_NewError, mapDelete_mapSet, CallOutcome.result, CallOutcome.state]
  simp

/-- What `Call` does when the request is encoded and the write succeeds. -/
theorem Call_write_succeeds (b : bjRPC) (method : String) (args : List GoValue) (frame : JVal)
    (hm : marshalClientRequest (b.callRequest method args) = .ok frame)
    (hw : b.transport.results.head? = none ∨ b.transport.results.head? = some none) :
    (b.Call method args).waitsOn = some b.chans ∧
    (b.Call method args).state.requestIds
      = mapSet b.requestIds (toString (addInt64 b._id 1)) b.chans ∧
    (b.Call method args).state.transport.written = b.transport.written ++ [frame] := by
  unfold bjRPC.callRequest at hm
  unfold bjRPC.Call
  cases hr : b.transport.results with
  | nil =>
    simp only []
    rw [hm]
    simp [Transport.Write, hr, CallOutcome.waitsOn, CallOutcome.state]
  | cons r rest =>
    rw [hr] at hw
    simp only [List.head?_cons, Option.some.injEq, reduceCtorEq, false_or] at hw
    subst hw
    simp only []
    rw [hm]
    simp [Transport.Write, hr, CallOutcome.waitsOn, CallOutcome.state]

/-! ## Calls whose write fails, new requests -/

theorem lookup_mapDelete_self {α : Type} (m : List (String × α)) (k : String) :
    (mapDelete m k).lookup k = none := by
  rw [List.lookup_eq_none_iff]
  intro p hp
  simp only [mapDelete, List.mem_filter, bne_iff_ne, ne_eq] at hp
  simp only [bne_iff_ne, ne_eq]
  exact fun h => hp.2 h.symm

theorem lookup_filter_ne {α : Type} (m : List (String × α)) (k k' : String) (h : k ≠ k') :
    (m.filter fun e => e.1 != k').lookup k = m.lookup k := by
  induction m with
  | nil => rfl
  | cons e m ih =>
    by_cases he : e.1 = k'
    · have hk : (k == e.1) = false := by
        rw [he]; exact beq_eq_false_iff_ne.mpr h
      simp only [List.filter_cons, he, bne_self_eq_false, Bool.false_eq_true, if_false, ih]
      rw [show e = (e.1, e.2) from rfl, List.lookup_cons, hk]
    · have hne : (e.1 != k') = true := bne_iff_ne.mpr he
      simp only [List.filter_cons, hne, if_true]
      rw [show e = (e.1, e.2) from rfl, List.lookup_cons, List.lookup_cons, ih]

theorem lookup_mapSet_isSome {α : Type} (m : List (String × α)) (k k' : String) (v : α)
    (h : (m.lookup k).isSome = true) : ((mapSet m k' v).lookup k).isSome = true := by
  unfold mapSet
  rw [List.lookup_cons]
  by_cases hk : k = k'
  · rw [hk, beq_self_eq_true]; rfl
  · rw [beq_eq_false_iff_ne.mpr hk, lookup_filter_ne m k k' hk]
    exact h

/-- One more call of `Call("Test")` on a transport whose next `Write` succeeds. -/
theorem Call_step (b : bjRPC) (rest : List (Option GoError))
    (h : b.transport.results = none :: rest) :
    (b.Call "Test" []).state._id = addInt64 b._id 1 ∧
    (b.Call "Test" []).state.transport.results = rest ∧
    (b.Call "Test" []).state.requestIds
      = mapSet b.requestIds (toString (addInt64 b._id 1)) b.chans := by
  unfold bjRPC.Call
  simp [marshalClientRequest, NewRequest, encodeValues, Transport.Write, h, CallOutcome.state]

/-- The engine after `n` calls on a transport that lets `total` writes through: the
counter is `n` wrapped to 64 bits, and from the first call on "1" is in the table. -/
theorem afterCalls_state (t : Transport) (total : Nat) (last : List (Option GoError))
    (ht : t.results = List.replicate total none ++ last) :
    ∀ n, n ≤ total →
      ((New t).afterCalls n)._id = addInt64 n 0 ∧
      ((New t).afterCalls n).transport.results = List.replicate (total - n) none ++ last ∧
      (1 ≤ n → (((New t).afterCalls n).requestIds.lookup "1").isSome = true) := by
  intro n
  induction n with
  | zero =>
    intro _
    refine ⟨rfl, ?_, fun h => absurd h (by decide)⟩
    simpa [bjRPC.afterCalls, New] using ht
  | succ n ih =>
    intro hn
    obtain ⟨h1, h2, h3⟩ := ih (by omega)
    have hrep : List.replicate (total - n) (none : Option GoError)
        = none :: List.replicate (total - (n + 1)) none := by
      rw [show total - n = (total - (n + 1)) + 1 by omega, List.replicate_succ]
    rw [hrep, List.cons_append] at h2
    obtain ⟨s1, s2, s3⟩ := Call_step _ _ h2
    simp only [bjRPC.afterCalls]
    refine ⟨?_, s2, fun _ => ?_⟩
    · rw [s1, h1]
      simp only [addInt64, Nat.cast_add, Nat.cast_one]
      omega
    · rw [s3]
      cases n with
      | zero =>
        simp only [bjRPC.afterCalls, New] at h1 ⊢
        exact lookup_mapSet_self _ _ _ ▸ rfl
      | succ k => exact lookup_mapSet_isSome _ _ _ _ (h3 (by omega))

/-- A call whose write fails, on an engine whose counter holds 0: it issues "1" and
leaves a table without "1". -/
theorem Call_fails_at_zero (b : bjRPC) (err : GoError) (hid : b._id = 0)
    (hres : b.transport.results = [some err]) :
    (b.Call "Test" []).result.map (fun r => r.response.Id) = some "1" ∧
    (b.Call "Test" []).state.requestIds.lookup "1" = none := by
  have hone : toString (addInt64 b._id 1) = "1" := by rw [hid]; decide
  obtain ⟨c1, _, c3, _⟩ := Call_write_fails b "Test" []
    (.obj [("jsonrpc", .str "2.0"), ("method", .str "Test"), ("params", .null),
      ("id", .str (toString (addInt64 b._id 1)))])
    err [] rfl hres
  constructor
  · rw [c1, ← hone]; rfl
  · rw [c3, hone]
    exact lookup_mapDelete_self _ _

/-- C12, as stated, fails once the counter has gone all the way round. On an engine
whose counter holds 0 and whose table holds "1", a call issues "1" again and puts
its completion over that entry; its write fails, and the delete leaves a table
without "1", which is not the table before the call. A new engine is in such a state
after 2^64 calls: the counter is 0 again and "1", the identifier of the first call,
is still in the table. -/
theorem Call_failed_write_drops_older_entry :
    wrappedState.requestIds = [("1", 0)] ∧
    (wrappedState.Call "Test" []).result.map (fun r => r.response.Id) = some "1" ∧
    (wrappedState.Call "Test" []).state.requestIds = [] ∧
    wrappedEngine._id = 0 ∧
    (wrappedEngine.requestIds.lookup "1").isSome = true ∧
    (wrappedEngine.Call "Test" []).result.map (fun r => r.response.Id) = some "1" ∧
    (wrappedEngine.Call "Test" []).state.requestIds.lookup "1" = none := by
  unfold wrappedEngine
  obtain ⟨h1, h2, h3⟩ := afterCalls_state wrappingTransport 18446744073709551616
    [some (.other "broken pipe")] rfl 18446744073709551616 (Nat.le_refl _)
  rw [Nat.sub_self] at h2
  have hid : ((New wrappingTransport).afterCalls 18446744073709551616)._id = 0 := by
    rw [h1]; decide
  exact ⟨rfl, rfl, rfl, hid, h3 (by decide), Call_fails_at_zero _ _ hid h2⟩

/-- C12, amended: a `Call` whose request is encoded and whose `Write` fails returns
without waiting. The `Error()` of its result is not nil, the response it carries has
the identifier the call issued and the error `NewError` makes of the failure, no
completion has been called, and the correlation table is the table before the call
without an entry for the issued identifier; it is the table before the call when
that identifier was not in it. -/
theorem Call_write_failure (b : bjRPC) (method : String) (args : List GoValue) (frame : JVal)
    (err : GoError) (rest : List (Option GoError))
    (hm : marshalClientRequest (b.callRequest method args) = .ok frame)
    (hw : b.transport.results = some err :: rest) :
    ∃ result, (b.Call method args).result = some result ∧
      result.Error ≠ none ∧
      result.response.Error = NewError err ∧
      (err ≠ .rpcNil → result.response.Error.isSome = true) ∧
      some result.response.Id = (b.callRequest method args).Id ∧
      (b.Call method args).state.events = b.events ∧
      (b.Call method args).state.requestIds = mapDelete b.requestIds result.response.Id ∧
      (b.requestIds.lookup result.response.Id = none →
        (b.Call method args).state.requestIds = b.requestIds) := by
  obtain ⟨h1, h2, h3, _⟩ := Call_write_fails b method args frame err rest hm hw
  refine ⟨_, h1, ?_, rfl, ?_, rfl, h2, h3, ?_⟩
  · simp [CallResult.Error]
  · intro hne
    cases err with
    | rpcNil => exact absurd rfl hne
    | rpc e => rfl
    | other msg => rfl
  · intro hfresh
    rw [h3]
    exact mapDelete_of_lookup_none _ _ hfresh

/-- C12, at the first call on a new engine whose transport fails: the result carries
the id "1" and the table is empty as before. -/
theorem Call_write_failure_witness :
    ∃ result, ((New (failingTransport (.other "broken pipe"))).Call "Test" []).result
        = some result ∧
      result.Error ≠ none ∧
      result.response.Error = NewError (.other "broken pipe") ∧
      ((GoError.other "broken pipe") ≠ .rpcNil → result.response.Error.isSome = true) ∧
      some result.response.Id
        = ((New (failingTransport (.other "broken pipe"))).callRequest "Test" []).Id ∧
      ((New (failingTransport (.other "broken pipe"))).Call "Test" []).state.events = [] ∧
      ((New (failingTransport (.other "broken pipe"))).Call "Test" []).state.requestIds
        = mapDelete [] result.response.Id ∧
      ((New (failingTransport (.other "broken pipe"))).requestIds.lookup result.response.Id
          = none →
        ((New (failingTransport (.other "broken pipe"))).Call "Test" []).state.requestIds
          = []) :=
  Call_write_failure (New (failingTransport (.other "broken pipe"))) "Test" []
    (.obj [("jsonrpc", .str "2.0"), ("method", .str "Test"), ("params", .null),
      ("id", .str "1")])
    (.other "broken pipe") [] rfl rfl

/-- C13, as stated, fails: the first call on a new engine whose `Write` fails with the
ordinary error "broken pipe" returns a result whose error has the code -32000 and is
retryable. -/
theorem Call_broken_pipe_is_retryable :
    (((New (failingTransport (.other "broken pipe"))).Call "Test" []).result.bind
        fun r => r.response.Error).map RPCError.Code = some (-32000) ∧
    (((New (failingTransport (.other "broken pipe"))).Call "Test" []).result.bind
        fun r => r.response.Error).map RPCError.Retry = some true :=
  ⟨rfl, rfl⟩

/-- C13, amended: a `Call` whose `Write` fails with an error that is not an `RPCError`
returns a result whose `RPCError` has the code -32000 and the message of that error,
and is retryable. -/
theorem Call_transport_error (b : bjRPC) (method : String) (args : List GoValue)
    (frame : JVal) (msg : String) (rest : List (Option GoError))
    (hm : marshalClientRequest (b.callRequest method args) = .ok frame)
    (hw : b.transport.results = some (.other msg) :: rest) :
    ∃ result e, (b.Call method args).result = some result ∧
      result.response.Error = some e ∧ e.Code = -32000 ∧ e.Message = msg ∧
      e.Retry = true := by
  obtain ⟨h1, _⟩ := Call_write_fails b method args frame (.other msg) rest hm hw
  exact ⟨_, _, h1, rfl, rfl, rfl, by simp [RPCError.Retry]⟩

/-- C13, at a call with two arguments on a transport that fails with "EOF". -/
theorem Call_transport_error_witness :
    ∃ result e, ((New (failingTransport (.other "EOF"))).Call "Test"
        [.json (.str "testarg1"), .json (.int 2)]).result = some result ∧
      result.response.Error = some e ∧ e.Code = -32000 ∧ e.Message = "EOF" ∧
      e.Retry = true :=
  Call_transport_error (New (failingTransport (.other "EOF"))) "Test"
    [.json (.str "testarg1"), .json (.int 2)]
    (.obj [("jsonrpc", .str "2.0"), ("method", .str "Test"),
      ("params", .arr [.str "testarg1", .int 2]), ("id", .str "1")])
    "EOF" [] rfl rfl

/-- C16: `NewRequest` with an id builds a request of version "2.0" with the given
method, the given params in the same order and number, and for id the decimal string
of the integer, which reads back as that integer (10 gives "10"); with a nil id it
builds the same request without id, a notification. -/
theorem NewRequest_fields (m : String) (n : Int) (ps : List GoValue) :
    (NewRequest m (some n) ps).JSONRPC = "2.0" ∧
    (NewRequest m (some n) ps).Method = m ∧
    (NewRequest m (some n) ps).Params = ps ∧
    (NewRequest m (some n) ps).Params.length = ps.length ∧
    (NewRequest m (some n) ps).Id = some (toString n) ∧
    decimalInt (toString n) = n ∧
    (NewRequest m (some 10) ps).Id = some "10" ∧
    (NewRequest m none ps).Id = none ∧
    (NewRequest m none ps).JSONRPC = "2.0" ∧
    (NewRequest m none ps).Method = m ∧
    (NewRequest m none ps).Params = ps :=
  ⟨rfl, rfl, rfl, rfl, rfl, decimalInt_toString n, rfl, rfl, rfl, rfl, rfl⟩

/-! ## Identifiers -/

/-- Whatever way `Call` ends, it ends with the identifier of its request: in the
response it returns, or as the key of the completion it waits on. -/
theorem Call_outcome_id (b : bjRPC) (method : String) (args : List GoValue) :
    (∀ r, (b.Call method args).result = some r →
      r.response.Id = toString (addInt64 b._id 1)) ∧
    (∀ done, (b.Call method args).waitsOn = some done →
      (b.Call method args).state.requestIds.lookup (toString (addInt64 b._id 1))
        = some done) := by
  unfold bjRPC.Call
  simp only []
  cases hm : marshalClientRequest (NewRequest method (some (addInt64 b._id 1)) args) with
  | error text =>
    simp only [NewRequest, ClientRequest.Response, Option.map, CallOutcome.result,
      CallOutcome.waitsOn]
    constructor
    · intro r hr
      simp only [Option.some.injEq] at hr
      rw [← hr]
    · intro done hd
      simp at hd
  | ok frame =>
    simp only []
    cases hw : (Transport.Write b.transport frame).2 with
    | some err =>
      simp only [NewRequest, ClientRequest.Response, Option.map, CallOutcome.result,
        CallOutcome.waitsOn]
      constructor
      · intro r hr
        simp only [Option.some.injEq] at hr
        rw [← hr]
      · intro done hd
        simp at hd
    | none =>
      simp only [CallOutcome.result, CallOutcome.waitsOn, CallOutcome.state]
      constructor
      · intro r hr
        simp at hr
      · intro done hd
        simp only [Option.some.injEq] at hd
        rw [← hd]
        exact lookup_mapSet_self _ _ _

theorem issuedIds_fresh :
    ∀ (calls : List (String × List GoValue)) (b : bjRPC),
      -9223372036854775808 ≤ b._id →
      b._id + (calls.length : Int) ≤ 9223372036854775807 →
      (b.issuedIds calls).Nodup ∧
      ∀ id ∈ b.issuedIds calls, ∃ k : Int, b._id < k ∧ id = some (toString k) := by
  intro calls
  induction calls with
  | nil => intro b _ _; simp [bjRPC.issuedIds]
  | cons call calls ih =>
    intro b hmin hlen
    simp only [List.length_cons, Nat.cast_add, Nat.cast_one] at hlen
    have hadd : addInt64 b._id 1 = b._id + 1 := addInt64_one _ hmin (by omega)
    have hid : (b.Call call.1 call.2).state._id = b._id + 1 := by
      rw [Call_state_id, hadd]
    have hhead : (b.callRequest call.1 call.2).Id = some (toString (b._id + 1)) := by
      simp [bjRPC.callRequest, NewRequest, hadd]
    obtain ⟨hnd, hmem⟩ := ih (b.Call call.1 call.2).state (by rw [hid]; omega)
      (by rw [hid]; omega)
    simp only [bjRPC.issuedIds, hhead]
    constructor
    · rw [List.nodup_cons]
      refine ⟨?_, hnd⟩
      intro hin
      obtain ⟨k, hk, hk'⟩ := hmem _ hin
      simp only [Option.some.injEq] at hk'
      have := toString_int_inj hk'
      rw [hid] at hk
      omega
    · intro id hin
      rw [List.mem_cons] at hin
      rcases hin with h | h
      · exact ⟨b._id + 1, by omega, h⟩
      · obtain ⟨k, hk, hk'⟩ := hmem _ h
        rw [hid] at hk
        exact ⟨k, by omega, hk'⟩

/-- C19, as stated, fails once the counter has gone all the way round. The first call
on a new engine issues "1". After 2^64 calls the counter holds 0, which is below the
maximum, and "1" is still in the table; the next call issues "1" again. -/
theorem Call_reissues_identifier_after_wrap :
    ((New wrappingTransport).callRequest "Test" []).Id = some "1" ∧
    wrappedEngine._id = 0 ∧
    (wrappedEngine.requestIds.lookup "1").isSome = true ∧
    (wrappedEngine.callRequest "Test" []).Id = some "1" := by
  unfold wrappedEngine
  obtain ⟨h1, _, h3⟩ := afterCalls_state wrappingTransport 18446744073709551616
    [some (.other "broken pipe")] rfl 18446744073709551616 (Nat.le_refl _)
  have hid : ((New wrappingTransport).afterCalls 18446744073709551616)._id = 0 := by
    rw [h1]; decide
  refine ⟨rfl, hid, h3 (by decide), ?_⟩
  simp only [bjRPC.callRequest, NewRequest, Option.map, hid]
  decide

/-- C19, amended: an engine whose counter holds `c`, a 64-bit integer below the
maximum, and has not gone round, so that the identifiers of earlier calls, the only
ones its correlation table holds, are the decimal strings of the integers from 1 to
`c`. The next `Call` issues the decimal string of `c + 1`: it is the id of its
request, of the response it returns and the key of the completion it waits on, and
the counter becomes `c + 1`. That identifier is the key of no entry already in the
table. Hence, for any sequence of calls that does not take the counter past the
maximum, the identifiers issued are pairwise distinct and none of them is the key of
an entry that was in the table. -/
theorem Call_issues_fresh_identifier (b : bjRPC) (method : String) (args : List GoValue)
    (hmin : -9223372036854775808 ≤ b._id) (hmax : b._id < 9223372036854775807)
    (htab : ∀ e ∈ b.requestIds, ∃ k : Int, 1 ≤ k ∧ k ≤ b._id ∧ e.1 = toString k) :
    (b.callRequest method args).Id = some (toString (b._id + 1)) ∧
    (b.Call method args).state._id = b._id + 1 ∧
    (∀ r, (b.Call method args).result = some r → r.response.Id = toString (b._id + 1)) ∧
    (∀ done, (b.Call method args).waitsOn = some done →
      (b.Call method args).state.requestIds.lookup (toString (b._id + 1)) = some done) ∧
    (∀ e ∈ b.requestIds, e.1 ≠ toString (b._id + 1)) ∧
    (∀ calls : List (String × List GoValue),
      b._id + (calls.length : Int) ≤ 9223372036854775807 →
      (b.issuedIds calls).Nodup ∧
      ∀ id ∈ b.issuedIds calls, ∀ e ∈ b.requestIds, some e.1 ≠ id) := by
  have hadd : addInt64 b._id 1 = b._id + 1 := addInt64_one _ hmin hmax
  have hout := Call_outcome_id b method args
  rw [hadd] at hout
  refine ⟨?_, ?_, hout.1, hout.2, ?_, ?_⟩
  · simp [bjRPC.callRequest, NewRequest, hadd]
  · rw [Call_state_id, hadd]
  · intro e he heq
    obtain ⟨k, _, hk, hk'⟩ := htab e he
    have := toString_int_inj (hk'.symm.trans heq)
    omega
  · intro calls hlen
    obtain ⟨hnd, hmem⟩ := issuedIds_fresh calls b hmin hlen
    refine ⟨hnd, ?_⟩
    intro id hin e he heq
    obtain ⟨k, hk, hk'⟩ := hmem id hin
    obtain ⟨j, _, hj, hj'⟩ := htab e he
    rw [hk', hj'] at heq
    simp only [Option.some.injEq] at heq
    have := toString_int_inj heq
    omega

/-- The table of `busyEngine` holds the identifiers of its two calls. -/
theorem busyEngine_table :
    ∀ e ∈ busyEngine.requestIds, ∃ k : Int, 1 ≤ k ∧ k ≤ busyEngine._id ∧ e.1 = toString k := by
  intro e he
  simp only [show busyEngine.requestIds = [("2", 1), ("1", 0)] from rfl, List.mem_cons,
    List.mem_singleton, List.not_mem_nil, or_false] at he
  rcases he with h | h
  · exact ⟨2, by decide, by decide, by rw [h]; rfl⟩
  · exact ⟨1, by decide, by decide, by rw [h]; rfl⟩

/-- C19, at an engine on which two calls are outstanding: the third call issues "3",
and three further calls issue "3", "4" and "5". -/
theorem Call_issues_fresh_identifier_witness :
    busyEngine.requestIds = [("2", 1), ("1", 0)] ∧
    (busyEngine.callRequest "c" []).Id = some (toString (busyEngine._id + 1)) ∧
    (busyEngine.callRequest "c" []).Id = some "3" ∧
    busyEngine.issuedIds [("c", []), ("d", []), ("e", [])]
      = [some "3", some "4", some "5"] ∧
    (busyEngine.issuedIds [("c", []), ("d", []), ("e", [])]).Nodup :=
  ⟨rfl,
    (Call_issues_fresh_identifier busyEngine "c" [] (by decide) (by decide)
      busyEngine_table).1,
    rfl, rfl,
    ((Call_issues_fresh_identifier busyEngine "c" [] (by decide) (by decide)
      busyEngine_table).2.2.2.2.2 [("c", []), ("d", []), ("e", [])] (by decide)).1⟩

end bjrpc

namespace json_rpc

/-! ## Round trip -/

theorem UnmarshalJSON_request_inv (data : JVal) (req : ServerRequest)
    (h : (ServerMessage.fresh.UnmarshalJSON data).1.ServerRequest = some req) :
    unmarshalServerRequest data = .ok req := by
  unfold ServerMessage.UnmarshalJSON at h
  cases h0 : unmarshalIntermediate data with
  | error e => rw [h0] at h; simp [ServerMessage.fresh] at h
  | ok im =>
    simp only [h0] at h
    by_cases hm : im.Method.isSome = true
    · rw [if_pos hm] at h
      cases h1 : unmarshalServerRequest data with
      | error e => rw [h1] at h; simp [ServerMessage.fresh] at h
      | ok r =>
        rw [h1] at h
        simp only [Option.some.injEq] at h
        rw [h]
    · rw [if_neg hm] at h
      by_cases hr : (im.Result.isSome || im.Error.isSome) = true
      · rw [if_pos hr] at h
        cases h1 : unmarshalServerResponse data with
        | error e => rw [h1] at h; simp [ServerMessage.fresh] at h
        | ok r => rw [h1] at h; simp [ServerMessage.fresh] at h
      · rw [if_neg hr] at h
        simp [ServerMessage.fresh] at h

theorem encodeRaws_json (vs : List JVal) : encodeRaws (vs.map RawMessage.json) = some vs := by
  induction vs with
  | nil => rfl
  | cons v vs ih => simp [encodeRaws, encodeRaw, ih]

theorem paramsOf_json (o : Option JVal) :
    ∃ vs : List JVal, paramsOf o = vs.map RawMessage.json := by
  cases o with
  | none => exact ⟨[], rfl⟩
  | some v => cases v <;> first | exact ⟨[], rfl⟩ | exact ⟨_, rfl⟩

/-- The frame with the four members of a request, in the order `json.Marshal` writes
them, decodes to the request they spell. -/
theorem UnmarshalJSON_canonical (j m : String) (vs : List JVal) (id : Option String) :
    ServerMessage.fresh.UnmarshalJSON
        (.obj [("jsonrpc", .str j), ("method", .str m),
          ("params", if vs.isEmpty then .null else .arr vs),
          ("id", match id with | some i => .str i | none => .null)])
      = ({ ServerRequest :=
             some { JSONRPC := j, Method := m, Params := vs.map RawMessage.json, Id := id },
           ServerResponse := none }, none) := by
  cases vs with
  | nil => cases id <;> rfl
  | cons v vs => cases id <;> rfl

theorem encodeValues_length (args : List GoValue) :
    ∀ js, encodeValues args = .ok js → js.length = args.length := by
  induction args with
  | nil => intro js h; simp only [encodeValues, Except.ok.injEq] at h; subst h; rfl
  | cons a args ih =>
    intro js h
    simp only [encodeValues] at h
    cases ha : encodeValue a with
    | error t => rw [ha] at h; simp at h
    | ok j =>
      rw [ha] at h
      cases hr : encodeValues args with
      | error t => rw [hr] at h; simp at h
      | ok js' =>
        rw [hr] at h
        simp only [Except.ok.injEq] at h
        rw [← h, List.length_cons, List.length_cons, ih js' hr]

end json_rpc

namespace bjrpc

open json_rpc

theorem Call_written (b : bjRPC) (method : String) (args : List GoValue) (frame : JVal)
    (hm : marshalClientRequest (b.callRequest method args) = .ok frame) :
    (b.Call method args).state.transport.written = b.transport.written ++ [frame] := by
  cases hr : b.transport.results with
  | nil => exact (Call_write_succeeds b method args frame hm (Or.inl (by rw [hr]; rfl))).2.2
  | cons r rest =>
    cases r with
    | none =>
      exact (Call_write_succeeds b method args frame hm (Or.inr (by rw [hr]; rfl))).2.2
    | some err => exact (Call_write_fails b method args frame err rest hm hr).2.2.2

/-- C17: round trip. A frame that decodes as a request, with or without id, once
re-encoded decodes again, to a request with the same method, the same params in the
same order and the same id. And the frame `Call` writes for a method and arguments
that `json.Marshal` accepts decodes to a request with that method, with one param
per argument, in order, each the encoding of its argument, and with the identifier
the call issued. -/
theorem request_round_trip :
    (∀ (ms : List (String × JVal)) (req : ServerRequest),
      (ServerMessage.fresh.UnmarshalJSON (.obj ms)).1.ServerRequest = some req →
      ∃ frame req', marshalServerRequest req = some frame ∧
        ServerMessage.fresh.UnmarshalJSON frame
          = ({ ServerRequest := some req', ServerResponse := none }, none) ∧
        req'.Method = req.Method ∧ req'.Params = req.Params ∧ req'.Id = req.Id) ∧
    (∀ (b : bjRPC) (method : String) (args : List GoValue) (js : List JVal),
      encodeValues args = .ok js →
      ∃ frame req', (b.Call method args).state.transport.written
          = b.transport.written ++ [frame] ∧
        ServerMessage.fresh.UnmarshalJSON frame
          = ({ ServerRequest := some req', ServerResponse := none }, none) ∧
        req'.Method = method ∧ req'.Params = js.map RawMessage.json ∧
        req'.Params.length = args.length ∧
        req'.Id = (b.callRequest method args).Id) := by
  constructor
  · intro ms req hdec
    have hreq := UnmarshalJSON_request_inv _ _ hdec
    obtain ⟨_, hP, _⟩ := unmarshalServerRequest_fields ms req hreq
    obtain ⟨vs, hvs⟩ := paramsOf_json (member "params" ms)
    rw [hvs] at hP
    refine ⟨_, ServerRequest.mk req.JSONRPC req.Method (vs.map RawMessage.json) req.Id, ?_,
      UnmarshalJSON_canonical req.JSONRPC req.Method vs req.Id, rfl, hP.symm, rfl⟩
    simp only [marshalServerRequest, hP, encodeRaws_json]
  · intro b method args js hjs
    have hm : marshalClientRequest (b.callRequest method args)
        = .ok (.obj [("jsonrpc", .str "2.0"), ("method", .str method),
            ("params", if js.isEmpty then .null else .arr js),
            ("id", match (b.callRequest method args).Id with
              | some i => .str i | none => .null)]) := by
      simp only [marshalClientRequest, bjRPC.callRequest, NewRequest, hjs, Option.map]
    refine ⟨_, ServerRequest.mk "2.0" method (js.map RawMessage.json)
        (b.callRequest method args).Id, Call_written b method args _ hm,
      UnmarshalJSON_canonical "2.0" method js (b.callRequest method args).Id, rfl, rfl,
      ?_, rfl⟩
    simp only [List.length_map]
    exact encodeValues_length args js hjs

/-- C17, at the frame of `TestUnmarshalRequest` and at `Call("Test", "testarg1", 2)`
of `TestCallEncoding`, which decodes to the method `Test` with the params
`"testarg1"` and `2` and the id "1". -/
theorem request_round_trip_witness :
    (∃ frame req', marshalServerRequest
          { JSONRPC := "2.0", Method := "test",
            Params := [.json (.int 1), .json (.int 2), .json (.obj [("a", .str "b")])],
            Id := some "1" } = some frame ∧
        ServerMessage.fresh.UnmarshalJSON frame
          = ({ ServerRequest := some req', ServerResponse := none }, none) ∧
        req'.Method = "test" ∧
        req'.Params = [.json (.int 1), .json (.int 2), .json (.obj [("a", .str "b")])] ∧
        req'.Id = some "1") ∧
    (∃ frame req', ((New emptyTransport).Call "Test"
          [.json (.str "testarg1"), .json (.int 2)]).state.transport.written
          = (New emptyTransport).transport.written ++ [frame] ∧
        ServerMessage.fresh.UnmarshalJSON frame
          = ({ ServerRequest := some req', ServerResponse := none }, none) ∧
        req'.Method = "Test" ∧
        req'.Params = [.json (.str "testarg1"), .json (.int 2)] ∧
        req'.Params.length = 2 ∧
        req'.Id = some "1") :=
  ⟨request_round_trip.1 testFrameMembers
      { JSONRPC := "2.0", Method := "test",
        Params := [.json (.int 1), .json (.int 2), .json (.obj [("a", .str "b")])],
        Id := some "1" } rfl,
    request_round_trip.2 (New emptyTransport) "Test"
      [.json (.str "testarg1"), .json (.int 2)] [.str "testarg1", .int 2] rfl⟩

end bjrpc
